import Mathlib

/-!
Verification development for the ragDemo repository.

Shallow embedding of the repository's Python modules:
  * `src/utils/error_logger.py`  — `APIErrorTracker` and its methods,
  * `src/utils/confluence_api.py` — `get_all_spaces_list`, `fetch_labels`,
  * `src/utils/data_prep.py`     — `clean_data_pinecone_schema`,
                                    `generate_embeddings_and_add_to_df`,
  * `src/utils/openai_logic.py`  — `get_chat_completion_messages`,
  * `src/app_pinecone_openai.py` — the ingestion/batching/upsert part of `main`.

Python's mutable objects become explicit state passing; the wall clock becomes
a rational-number clock advanced by the `time.sleep` calls; external services
(the OpenAI embedding/chat endpoints, `json.loads`, the filesystem) become
oracle parameters.  Machine floats carrying times/scores are modelled as `Rat`.
-/

namespace RagDemo

/-- Association-list lookup, modelling a read of a Python `dict` /
`defaultdict` that is guarded by a membership test (`none` = key absent). -/
def lookupA {α : Type} : List (String × α) → String → Option α
  | [], _ => none
  | (k, v) :: rest, key => if k = key then some v else lookupA rest key

/-- Association-list update, modelling Python `dict` assignment:
replaces the value in place when the key is present, appends otherwise
(preserving Python's insertion order). -/
def updA {α : Type} : List (String × α) → String → α → List (String × α)
  | [], key, v => [(key, v)]
  | (k, w) :: rest, key, v =>
    if k = key then (key, v) :: rest else (k, w) :: updA rest key v

/-- State of `APIErrorTracker` (src/utils/error_logger.py, lines 14-25):
`log_dir`, the `error_counts` / `last_error_time` / `success_counts`
defaultdicts.  Times are rationals standing in for `time.time()` floats. -/
structure TrackerState where
  log_dir : String
  error_counts : List (String × Nat)
  last_error_time : List (String × Rat)
  success_counts : List (String × Nat)
deriving DecidableEq

/-- A fresh tracker, as built by `APIErrorTracker.__init__` with the default
log directory (the directory creation side effect is elided). -/
def TrackerState.mk0 : TrackerState :=
  ⟨"./logs", [], [], []⟩

/-- The in-memory part of `log_error` (src/utils/error_logger.py lines 29-30):
increment the type's count and record `now` as its last-error time. -/
def bumpError (s : TrackerState) (error_type : String) (now : Rat) : TrackerState :=
  { s with
    error_counts := updA s.error_counts error_type
      (((lookupA s.error_counts error_type).getD 0) + 1),
    last_error_time := updA s.last_error_time error_type now }

/-- One line of the JSON log entry written by `log_error`
(src/utils/error_logger.py lines 33-39). -/
structure LogEntry where
  timestamp : String
  api_type : String
  error_type : String
  details : String
  count : Nat
deriving DecidableEq

/-- Escape one character the way Python's `json.dumps` (default
`ensure_ascii=True`) escapes characters inside a string literal. -/
def pyJsonEscChar (c : Char) : String :=
  if c = '"' then "\\\""
  else if c = '\\' then "\\\\"
  else if c = '\n' then "\\n"
  else if c = '\t' then "\\t"
  else if c = '\r' then "\\r"
  else if c.toNat = 8 then "\\b"
  else if c.toNat = 12 then "\\f"
  else if c.toNat < 32 ∨ c.toNat > 126 then
    if c.toNat < 65536 then
      "\\u" ++ (Nat.toDigits 16 c.toNat).asString.leftpad 4 '0'
    else
      let v := c.toNat - 65536
      "\\u" ++ (Nat.toDigits 16 (55296 + v / 1024)).asString.leftpad 4 '0' ++
      "\\u" ++ (Nat.toDigits 16 (56320 + v % 1024)).asString.leftpad 4 '0'
  else String.singleton c

/-- Python `json.dumps` applied to a string value. -/
def pyJsonStr (s : String) : String :=
  "\"" ++ String.join (s.toList.map pyJsonEscChar) ++ "\""

/-- Python `json.dumps({'source': source, 'text': text})` with the default
separators, as produced by `clean_data_pinecone_schema`
(src/utils/data_prep.py line 64). -/
def jsonDumpsSourceText (source text : String) : String :=
  "\x7b\"source\": " ++ pyJsonStr source ++ ", \"text\": " ++ pyJsonStr text ++ "\x7d"

/-- Python `json.dumps(log_entry)` for the error-log line
(src/utils/error_logger.py line 46), field order as in the source dict. -/
def dumpsLogEntry (e : LogEntry) : String :=
  "\x7b\"timestamp\": " ++ pyJsonStr e.timestamp ++
  ", \"api_type\": " ++ pyJsonStr e.api_type ++
  ", \"error_type\": " ++ pyJsonStr e.error_type ++
  ", \"details\": " ++ pyJsonStr e.details ++
  ", \"count\": " ++ toString e.count ++ "\x7d"

/-- The daily log-file path `f"{log_dir}/{api_type}_errors_{date_str}.log"`
(src/utils/error_logger.py line 43). -/
def log_filename (log_dir api_type date_str : String) : String :=
  log_dir ++ "/" ++ api_type ++ "_errors_" ++ date_str ++ ".log"

/-- `APIErrorTracker.log_error` (src/utils/error_logger.py lines 27-48).
The filesystem is an oracle: `files` is the list of `(path, line)` appends
performed so far and `appendOk` says whether the `open`/`write` succeeds.
The in-memory counters are updated first, exactly as in the source; when the
append fails the `with open` raises, modelled by an `Except.error` result
(the entry is only returned on the success path). -/
def log_error (s : TrackerState) (error_type details api_type : String)
    (now : Rat) (timestamp date_str : String)
    (files : List (String × String)) (appendOk : Bool) :
    TrackerState × List (String × String) × Except String LogEntry :=
  let s' := bumpError s error_type now
  let entry : LogEntry :=
    ⟨timestamp, api_type, error_type, details,
      ((lookupA s.error_counts error_type).getD 0) + 1⟩
  let fname := log_filename s.log_dir api_type date_str
  if appendOk then
    (s', files ++ [(fname, dumpsLogEntry entry ++ "\n")], Except.ok entry)
  else
    (s', files, Except.error "file append failed")

/-- `APIErrorTracker.log_success` (src/utils/error_logger.py lines 50-52). -/
def log_success (s : TrackerState) (operation_type : String) : TrackerState :=
  { s with
    success_counts := updA s.success_counts operation_type
      (((lookupA s.success_counts operation_type).getD 0) + 1) }

/-- Python `round(x, 2)` on the seconds-since-last-error values
(src/utils/error_logger.py line 67). -/
def roundTo2 (x : Rat) : Rat := (round (x * 100) : Int) / 100

/-- The summary dict returned by `get_error_summary`
(src/utils/error_logger.py lines 54-70). -/
structure ErrorSummary where
  total_errors : Nat
  error_types : List (String × Nat)
  success_counts : List (String × Nat)
  time_since_last_error : List (String × Rat)
deriving DecidableEq

/-- `APIErrorTracker.get_error_summary` (src/utils/error_logger.py
lines 54-70).  Returns the summary together with the (unchanged) tracker
state, making the absence of mutation explicit in the embedding. -/
def get_error_summary (s : TrackerState) (now : Rat) : ErrorSummary × TrackerState :=
  (⟨(s.error_counts.map (fun p => p.2)).sum,
    s.error_counts,
    s.success_counts,
    (s.last_error_time.filter (fun p => decide (0 < p.2))).map
      (fun p => (p.1, roundTo2 (now - p.2)))⟩,
   s)

/-- `APIErrorTracker.should_continue` (src/utils/error_logger.py
lines 72-102).  Returns the boolean together with the possibly-updated state
(the counter reset on line 98 is the only mutation). -/
def should_continue (s : TrackerState) (error_type : String)
    (threshold : Nat) (window_seconds now : Rat) : Bool × TrackerState :=
  match lookupA s.error_counts error_type with
  | none => (true, s)
  | some c =>
    if c < threshold then (true, s)
    else if now - (lookupA s.last_error_time error_type).getD 0 > window_seconds then
      (true, { s with error_counts := updA s.error_counts error_type 0 })
    else
      (false, s)

/-- An operation performed on the process-wide tracker, used to describe the
reachable tracker states (each method call of `APIErrorTracker`, with the
`time.time()` value it observed; `log_error`'s file append is elided since it
does not touch the counters). -/
inductive TrackerOp where
  | logError (error_type details : String) (now : Rat)
  | logSuccess (operation_type : String)
  | shouldContinue (error_type : String) (threshold : Nat) (window_seconds now : Rat)
deriving DecidableEq

/-- Apply one tracker operation to a state. -/
def applyOp (s : TrackerState) : TrackerOp → TrackerState
  | TrackerOp.logError t _ now => bumpError s t now
  | TrackerOp.logSuccess op => log_success s op
  | TrackerOp.shouldContinue t th w now => (should_continue s t th w now).2

/-- Run a sequence of tracker operations from a state. -/
def runOps (s : TrackerState) : List TrackerOp → TrackerState
  | [] => s
  | op :: rest => runOps (applyOp s op) rest

/-- The `time.time()` value carried by a `logError` operation. -/
def TrackerOp.isLogOf (t : String) : TrackerOp → Bool
  | TrackerOp.logError t' _ _ => t' = t
  | _ => false

/-! ### Document-service client: src/utils/confluence_api.py -/

/-- One spaces response, `{results: [...], _links: {next?}}`
(src/utils/confluence_api.py lines 52-66).  `results = none` models the
`"results" not in spaces_data` case; `next` is the truthiness of
`spaces_data.get("_links", {}).get("next")`.  Space entries are abstracted
to strings (the code never inspects them). -/
structure SpacesResponse where
  results : Option (List String)
  next : Bool
deriving DecidableEq

/-- The `while True` loop of `get_all_spaces_list`
(src/utils/confluence_api.py lines 44-68), instrumented with the list of
`start` offsets actually requested.  `fetch` is the network oracle behind
`get_all_spaces(start, 100)` (`none` = `api_call` returned `None`); `fuel`
bounds the unbounded Python loop (every theorem supplies enough fuel for the
page sequence at hand).  Returns `(all_spaces, requested offsets)`. -/
def get_all_spaces_aux (fetch : Nat → Option SpacesResponse) :
    Nat → Nat → List String × List Nat
  | 0, _ => ([], [])
  | fuel + 1, start =>
    match fetch start with
    | none => ([], [start])
    | some p =>
      match p.results with
      | none => ([], [start])
      | some rs =>
        if rs = [] then ([], [start])
        else if p.next then
          let (acc, reqs) := get_all_spaces_aux fetch fuel (start + 100)
          (rs ++ acc, start :: reqs)
        else (rs, [start])

/-- `get_all_spaces_list` (src/utils/confluence_api.py lines 44-68):
start offset 0, page size 100. -/
def get_all_spaces_list (fetch : Nat → Option SpacesResponse) (fuel : Nat) :
    List String :=
  (get_all_spaces_aux fetch fuel 0).1

/-- One entry of a labels response; `name` is `item.get("name")`. -/
structure LabelItem where
  name : Option String
deriving DecidableEq

/-- A labels response `{results: [...], ...}`
(src/utils/confluence_api.py lines 127-147).  `results = none` models the
`results` key being absent; `extraKeys` counts the other top-level keys, so
that Python dict truthiness (`if json_data:` = the dict is non-empty) is
expressible. -/
structure LabelsResponse where
  results : Option (List LabelItem)
  extraKeys : Nat
deriving DecidableEq

/-- Python truthiness of the labels-response dict. -/
def labelsTruthy (j : LabelsResponse) : Bool :=
  j.results.isSome || decide (j.extraKeys ≠ 0)

/-- `fetch_labels` (src/utils/confluence_api.py lines 127-147).  The
argument is the `api_call` result (`none` = the call returned `None`).
Note `json_data.get("results", [])`: a missing `results` key yields the
empty list, so the loop runs zero times and `False` is returned; the
`except KeyError` branch is unreachable for dict-shaped responses. -/
def fetch_labels (resp : Option LabelsResponse) : Option Bool :=
  match resp with
  | none => none
  | some j =>
    if labelsTruthy j then
      some ((j.results.getD []).any (fun item => item.name = some "internal_only"))
    else
      none

/-! ### LLM client: src/utils/openai_logic.py -/

/-- Outcome of one `openai_client.chat.completions.create` call as seen by
`get_chat_completion_messages`'s exception handlers. -/
inductive ChatOutcome where
  | ok (content : String)
  | rateLimit (msg : String)
  | connError (msg : String)
  | apiError (status : Nat) (msg : String)
  | other (msg : String)
deriving DecidableEq

/-- Apology returned after rate-limit retries are exhausted
(src/utils/openai_logic.py line 89). -/
def apologyRateLimit : String :=
  "I\x27m sorry, but I\x27m currently experiencing high traffic. Please try again in a few minutes."

/-- Apology returned after connection-error retries are exhausted
(src/utils/openai_logic.py line 101). -/
def apologyConn : String :=
  "I\x27m sorry, but I\x27m having trouble connecting to the AI service. Please try again later."

/-- Apology returned after 429-status retries are exhausted
(src/utils/openai_logic.py line 115). -/
def apologyBusy : String :=
  "I\x27m sorry, but the service is currently busy. Please try again in a few minutes."

/-- Apology returned on a non-429 API error (src/utils/openai_logic.py
line 122). -/
def apologyApiError : String :=
  "I apologize, but I encountered an error processing your request."

/-- Apology returned on an unclassified exception
(src/utils/openai_logic.py line 126). -/
def apologyUnknown : String :=
  "I apologize, but something went wrong while processing your request."

/-- The retry loop of `get_chat_completion_messages`
(src/utils/openai_logic.py lines 67-126), `max_retries = 3`.  `attempt i`
is the outcome of the `i`-th completion call; the loop body re-enters only
with `retry_count ≤ 3`, so `fuel = 4` covers every execution.  Returns
`(returned string, sleeps performed in order, number of completion calls)`.
Note the source increments `retry_count` *before* computing
`wait_time = (2 ** retry_count) * 5`. -/
def chatLoop (attempt : Nat → ChatOutcome) :
    Nat → Nat → Nat → String × List Rat × Nat
  | 0, _, _ => ("", [], 0)
  | fuel + 1, retry_count, idx =>
    match attempt idx with
    | ChatOutcome.ok c => (c, [], 1)
    | ChatOutcome.rateLimit _ =>
      let rc := retry_count + 1
      let wait : Rat := 2 ^ rc * 5
      if rc > 3 then (apologyRateLimit, [], 1)
      else
        let (res, sleeps, calls) := chatLoop attempt fuel rc (idx + 1)
        (res, wait :: sleeps, calls + 1)
    | ChatOutcome.connError _ =>
      let rc := retry_count + 1
      let wait : Rat := 5 * rc
      if rc > 3 then (apologyConn, [], 1)
      else
        let (res, sleeps, calls) := chatLoop attempt fuel rc (idx + 1)
        (res, wait :: sleeps, calls + 1)
    | ChatOutcome.apiError status _ =>
      if status = 429 then
        let rc := retry_count + 1
        let wait : Rat := 2 ^ rc * 5
        if rc > 3 then (apologyBusy, [], 1)
        else
          let (res, sleeps, calls) := chatLoop attempt fuel rc (idx + 1)
          (res, wait :: sleeps, calls + 1)
      else (apologyApiError, [], 1)
    | ChatOutcome.other _ => (apologyUnknown, [], 1)

/-- `get_chat_completion_messages` (src/utils/openai_logic.py lines 67-126):
`retry_count` starts at 0 and the loop makes at most 4 completion calls. -/
def get_chat_completion_messages (attempt : Nat → ChatOutcome) :
    String × List Rat × Nat :=
  chatLoop attempt 4 0 0

/-! ### Data preparation: src/utils/data_prep.py -/

/-- A CSV cell, as pandas sees it: a string, an integer, or missing (NaN). -/
inductive Cell where
  | s (v : String)
  | i (v : Int)
  | na
deriving DecidableEq

/-- Pandas `astype(str)` on one cell (`str(nan)` prints `"nan"`). -/
def Cell.toStr : Cell → String
  | Cell.s v => v
  | Cell.i v => toString v
  | Cell.na => "nan"

/-- An input row of `clean_data_pinecone_schema`: the three required columns
(`content = none` models NaN; extra columns are dropped by the function and
are not modelled). -/
structure InRow where
  id : Cell
  tiny_link : String
  content : Option String
deriving DecidableEq

/-- The input frame: its column list (to express the missing-column branch)
plus its rows. -/
structure InFrame where
  cols : List String
  rows : List InRow
deriving DecidableEq

/-- An output row of `clean_data_pinecone_schema`: columns `id`, `metadata`. -/
structure OutRow where
  id : String
  metadata : String
deriving DecidableEq

/-- The row filter of src/utils/data_prep.py line 55:
`df['content'].notna() & (df['content'] != '')`. -/
def keepRow (r : InRow) : Bool :=
  match r.content with
  | none => false
  | some c => decide (c ≠ "")

/-- The per-row transformation of src/utils/data_prep.py lines 62-65:
`id` coerced to string, `tiny_link` renamed to `source`, `metadata` the
JSON dump of `{'source': ..., 'text': ...}`. -/
def toPineconeRow (r : InRow) : OutRow :=
  ⟨r.id.toStr, jsonDumpsSourceText r.tiny_link (r.content.getD "")⟩

/-- `clean_data_pinecone_schema` (src/utils/data_prep.py lines 40-68).
Returns `(columns, rows)`; the `not isinstance(df, pd.DataFrame)` branch is
ruled out by typing. -/
def clean_data_pinecone_schema (df : InFrame) : List String × List OutRow :=
  if "id" ∈ df.cols ∧ "tiny_link" ∈ df.cols ∧ "content" ∈ df.cols then
    let kept := df.rows.filter keepRow
    if kept = [] then (["id", "metadata"], [])
    else (["id", "metadata"], kept.map toPineconeRow)
  else
    (["id", "metadata"], [])

/-- What `json.loads(row['metadata'])` followed by `meta.get('text', '')`
observes: `none` = `json.JSONDecodeError`; otherwise the decoded dict's
optional `text` field. -/
structure PyMeta where
  text : Option String
deriving DecidableEq

/-- Outcome of one `create_embeddings` call as seen by the exception
handlers of `generate_embeddings_and_add_to_df`
(src/utils/data_prep.py lines 138-234).  `apiError`'s status is
`getattr(e, "status_code", None)`. -/
inductive EmbedOutcome where
  | ok (vec : List Rat)
  | rateLimit (msg : String)
  | connError (msg : String)
  | apiError (status : Option Nat) (msg : String)
  | other (ename msg : String)
deriving DecidableEq

/-- The external environment of `generate_embeddings_and_add_to_df`:
the Python `json.loads`-plus-`get('text','')` observation for each metadata
string, and the outcome of the `i`-th `create_embeddings` call of the
process. -/
structure GenEnv where
  jsonLoads : String → Option PyMeta
  embed : Nat → EmbedOutcome

/-- Threaded state of `generate_embeddings_and_add_to_df` (and of the
batch driver built on it): the shared tracker, a clock advanced by every
`time.sleep`, the global `create_embeddings` call index, and observable
instrumentation (number of `should_continue` consultations, number of
embedding calls, the `successful_embeddings` / `failed_embeddings`
counters).  `log_error` file appends are assumed to succeed and are elided
(only `bumpError`, the in-memory part, is applied). -/
structure GenState where
  tracker : TrackerState
  clock : Rat
  callIdx : Nat
  consults : Nat
  embedCalls : Nat
  successes : Nat
  faileds : Nat
deriving DecidableEq

/-- A fresh run state over a fresh tracker, clock at 0. -/
def GenState.mk0 : GenState :=
  ⟨TrackerState.mk0, 0, 0, 0, 0, 0, 0⟩

/-- Result of the inner `while retries <= max_retries` loop for one row:
an embedding was stored, the row was given up on, or the `should_continue`
guard fired (which aborts the whole function with partial results). -/
inductive RowOutcome where
  | gotVec (vec : List Rat)
  | gaveUp
  | stopAll
deriving DecidableEq

/-- The inner retry loop of `generate_embeddings_and_add_to_df`
(src/utils/data_prep.py lines 122-234), `max_retries = 3`.  Every re-entry
has `retries ≤ 3`, so the `while` condition never fails and `fuel = 4`
covers every execution.  Each iteration: consult
`should_continue("rate_limit", 5, 60)` (stop ⇒ `stopAll`), sleep 0.1 s,
call `create_embeddings`, then dispatch on the outcome exactly as the
source's handlers do.  Note the source computes
`wait_time = (2 ** retries) * 5` *before* incrementing `retries`, and the
429 `APIError` branch does not call `log_error`. -/
def processRow (env : GenEnv) : Nat → Nat → GenState → RowOutcome × GenState
  | 0, _, st => (RowOutcome.gaveUp, st)
  | fuel + 1, retries, st =>
    match should_continue st.tracker "rate_limit" 5 60 st.clock with
    | (false, tr) =>
      (RowOutcome.stopAll, { st with tracker := tr, consults := st.consults + 1 })
    | (true, tr) =>
      match env.embed st.callIdx with
      | EmbedOutcome.ok vec =>
        (RowOutcome.gotVec vec,
         { st with tracker := log_success tr "embedding_generation",
                   clock := st.clock + 1 / 10,
                   callIdx := st.callIdx + 1,
                   consults := st.consults + 1,
                   embedCalls := st.embedCalls + 1 })
      | EmbedOutcome.rateLimit _ =>
        if retries + 1 > 3 then
          (RowOutcome.gaveUp,
           { st with tracker := bumpError tr "rate_limit" (st.clock + 1 / 10),
                     clock := st.clock + 1 / 10,
                     callIdx := st.callIdx + 1,
                     consults := st.consults + 1,
                     embedCalls := st.embedCalls + 1 })
        else
          processRow env fuel (retries + 1)
            { st with tracker := bumpError tr "rate_limit" (st.clock + 1 / 10),
                      clock := st.clock + 1 / 10 + 2 ^ retries * 5,
                      callIdx := st.callIdx + 1,
                      consults := st.consults + 1,
                      embedCalls := st.embedCalls + 1 }
      | EmbedOutcome.connError _ =>
        if retries < 3 then
          processRow env fuel (retries + 1)
            { st with tracker := bumpError tr "api_connection" (st.clock + 1 / 10),
                      clock := st.clock + 1 / 10 + 5 * (retries : Rat),
                      callIdx := st.callIdx + 1,
                      consults := st.consults + 1,
                      embedCalls := st.embedCalls + 1 }
        else
          (RowOutcome.gaveUp,
           { st with tracker := bumpError tr "api_connection" (st.clock + 1 / 10),
                     clock := st.clock + 1 / 10,
                     callIdx := st.callIdx + 1,
                     consults := st.consults + 1,
                     embedCalls := st.embedCalls + 1 })
      | EmbedOutcome.apiError status _ =>
        if status = some 429 then
          if retries + 1 > 3 then
            (RowOutcome.gaveUp,
             { st with tracker := tr,
                       clock := st.clock + 1 / 10,
                       callIdx := st.callIdx + 1,
                       consults := st.consults + 1,
                       embedCalls := st.embedCalls + 1 })
          else
            processRow env fuel (retries + 1)
              { st with tracker := tr,
                        clock := st.clock + 1 / 10 + 2 ^ retries * 5,
                        callIdx := st.callIdx + 1,
                        consults := st.consults + 1,
                        embedCalls := st.embedCalls + 1 }
        else
          (RowOutcome.gaveUp,
           { st with tracker := bumpError tr "api_error" (st.clock + 1 / 10),
                     clock := st.clock + 1 / 10,
                     callIdx := st.callIdx + 1,
                     consults := st.consults + 1,
                     embedCalls := st.embedCalls + 1 })
      | EmbedOutcome.other _ _ =>
        (RowOutcome.gaveUp,
         { st with tracker := bumpError tr "unknown" (st.clock + 1 / 10),
                   clock := st.clock + 1 / 10,
                   callIdx := st.callIdx + 1,
                   consults := st.consults + 1,
                   embedCalls := st.embedCalls + 1 })

/-- The outer `for index, row in df.iterrows()` loop of
`generate_embeddings_and_add_to_df` (src/utils/data_prep.py lines 102-234).
Produces, per input row, the `values` cell it ends with (`none` = the
initial `None`), plus the final state and whether the `should_continue`
guard caused the early partial return (in which case the remaining rows
keep `values = None` and no further processing happens). -/
def genLoop (env : GenEnv) (st : GenState) :
    List OutRow → List (OutRow × Option (List Rat)) × GenState × Bool
  | [] => ([], st, false)
  | r :: rest =>
    match env.jsonLoads r.metadata with
    | none =>
      let st := { st with
        tracker := bumpError st.tracker "json_decode" st.clock,
        faileds := st.faileds + 1 }
      let (tl, st', early) := genLoop env st rest
      ((r, none) :: tl, st', early)
    | some meta =>
      if meta.text.getD "" = "" then
        let st := { st with
          tracker := bumpError st.tracker "missing_text" st.clock,
          faileds := st.faileds + 1 }
        let (tl, st', early) := genLoop env st rest
        ((r, none) :: tl, st', early)
      else
        match processRow env 4 0 st with
        | (RowOutcome.gotVec vec, st') =>
          let st' := { st' with successes := st'.successes + 1 }
          let (tl, st'', early) := genLoop env st' rest
          ((r, some vec) :: tl, st'', early)
        | (RowOutcome.gaveUp, st') =>
          let st' := { st' with faileds := st'.faileds + 1 }
          let (tl, st'', early) := genLoop env st' rest
          ((r, none) :: tl, st'', early)
        | (RowOutcome.stopAll, st') =>
          ((r, none) :: rest.map (fun r' => (r', none)), st', true)

/-- A row after `generate_embeddings_and_add_to_df`: the cleaned columns
plus `values` and the `embedding_status` bookkeeping column. -/
structure GRow where
  id : String
  metadata : String
  values : Option (List Rat)
  embedding_status : String
deriving DecidableEq

/-- The status tagging of src/utils/data_prep.py lines 129-133 and 241-245:
`"success" if isinstance(x.get('values', None), list) else "not_processed"`
(the `values` cell is `None` or a list produced by `create_embeddings`). -/
def tagStatus (p : OutRow × Option (List Rat)) : GRow :=
  ⟨p.1.id, p.1.metadata, p.2, if p.2.isSome then "success" else "not_processed"⟩

/-- `generate_embeddings_and_add_to_df` (src/utils/data_prep.py
lines 73-252).  The `df.empty` guard returns an empty frame; the
`None`/non-DataFrame/missing-`metadata`-column guards are ruled out by
typing.  Returns the tagged rows, the final state and the early-return
flag.  Both the early partial return (lines 125-136) and the normal
completion (lines 240-245) tag every row of the frame with the same rule,
so the tagging is applied uniformly here. -/
def generate_embeddings_and_add_to_df (env : GenEnv) (st : GenState)
    (rows : List OutRow) : List GRow × GenState × Bool :=
  if rows = [] then ([], st, false)
  else
    let (ps, st', early) := genLoop env st rows
    (ps.map tagStatus, st', early)

/-! ### Ingestion refresh of `main`: src/app_pinecone_openai.py -/

/-- An upserted record: `embedding_status` dropped
(src/app_pinecone_openai.py lines 152-154). -/
structure URow where
  id : String
  metadata : String
  values : Option (List Rat)
deriving DecidableEq

/-- Dropping the `embedding_status` column before upsert. -/
def dropStatus (g : GRow) : URow :=
  ⟨g.id, g.metadata, g.values⟩

/-- `df.iloc[i:i+batch_size]` chunking of the cleaned frame into the
source's fixed batches of 25 rows (src/app_pinecone_openai.py
lines 75, 90-95). -/
def chunkList25 : List OutRow → List (List OutRow)
  | [] => []
  | r :: rs =>
    (r :: rs).take 25 :: chunkList25 ((r :: rs).drop 25)
termination_by l => l.length
decreasing_by
  simp only [List.length_drop, List.length_cons]
  omega

/-- State of the batch loop: the shared run state plus the adaptive
`batch_pause_time` (src/app_pinecone_openai.py lines 88, 118-128). -/
structure MainState where
  gs : GenState
  batch_pause : Rat
deriving DecidableEq

/-- The `for i in range(0, total_rows, batch_size)` loop of `main`
(src/app_pinecone_openai.py lines 90-141): per batch, consult
`should_continue("rate_limit", 10, 60)` (stop ⇒ break, keeping what was
accumulated), run `generate_embeddings_and_add_to_df`, keep the rows tagged
`"success"`, adapt the pause and sleep it when more batches remain.  The
`except batch_error` branch is unreachable in this embedding (the embedded
callee never raises).  Returns `(accumulated success rows, all rows the
batches produced, final state)`. -/
def mainBatches (env : GenEnv) :
    MainState → List (List OutRow) → List GRow × List GRow × MainState
  | ms, [] => ([], [], ms)
  | ms, b :: bs =>
    let (cont, tr) := should_continue ms.gs.tracker "rate_limit" 10 60 ms.gs.clock
    let ms := { ms with gs := { ms.gs with tracker := tr } }
    if cont then
      let t0 := ms.gs.clock
      let (grows, gs', _) := generate_embeddings_and_add_to_df env ms.gs b
      let success := grows.filter (fun g => g.embedding_status = "success")
      let pause :=
        if gs'.clock - t0 < 1 then max 1 (ms.batch_pause - 1 / 2)
        else ms.batch_pause
      let gs' := if bs = [] then gs' else { gs' with clock := gs'.clock + pause }
      let (tlSuccess, tlAll, ms') :=
        mainBatches env { gs := gs', batch_pause := pause } bs
      (success ++ tlSuccess, grows ++ tlAll, ms')
    else
      ([], [], ms)

/-- The ingestion refresh of `main` after cleaning
(src/app_pinecone_openai.py lines 74-168): batch size 25, initial pause 2 s;
if any rows were accumulated, the `embedding_status` column is dropped and
the rows are upserted (the list returned first is exactly what is passed to
`upsert_data`; an empty accumulation skips the upsert). -/
def main_ingest (env : GenEnv) (st : GenState) (rows : List OutRow) :
    List URow × List GRow × MainState :=
  let (succ, allRows, ms) :=
    mainBatches env ⟨st, 2⟩ (chunkList25 rows)
  (if succ = [] then [] else succ.map dropStatus, allRows, ms)

/-! ### Helper lemmas on the association-list dictionaries -/

theorem lookupA_updA {α : Type} (l : List (String × α)) (k : String) (v : α)
    (t : String) :
    lookupA (updA l k v) t = if k = t then some v else lookupA l t := by
  induction l with
  | nil =>
    simp [updA, lookupA]
  | cons hd tl ih =>
    obtain ⟨k', w⟩ := hd
    by_cases hk : k' = k
    · subst hk
      simp only [updA, if_pos rfl, lookupA]
      by_cases ht : k' = t
      · simp [ht]
      · simp [ht]
    · simp only [updA, if_neg hk, lookupA]
      by_cases ht : k' = t
      · subst ht
        have hkt : ¬ k = k' := fun h => hk h.symm
        simp [hkt]
      · simp [ht, ih]

theorem self_mem_updA {α : Type} (l : List (String × α)) (k : String) (v : α) :
    (k, v) ∈ updA l k v := by
  induction l with
  | nil => simp [updA]
  | cons hd tl ih =>
    obtain ⟨k', w⟩ := hd
    by_cases hk : k' = k
    · simp [updA, hk]
    · simp only [updA, if_neg hk, List.mem_cons]
      exact Or.inr ih

theorem mem_updA_ne {α : Type} (l : List (String × α)) (k : String) (v : α)
    (t : String) (w : α) (ht : t ≠ k) :
    (t, w) ∈ updA l k v ↔ (t, w) ∈ l := by
  induction l with
  | nil =>
    simp only [updA, List.mem_singleton, List.not_mem_nil, iff_false]
    intro h
    exact ht (congrArg Prod.fst h)
  | cons hd tl ih =>
    obtain ⟨k', w'⟩ := hd
    by_cases hk : k' = k
    · subst hk
      have hupd : updA ((k', w') :: tl) k' v = (k', v) :: tl := by
        simp [updA]
      rw [hupd]
      simp only [List.mem_cons]
      constructor
      · rintro (h | h)
        · exact absurd (congrArg Prod.fst h) ht
        · exact Or.inr h
      · rintro (h | h)
        · exact absurd (congrArg Prod.fst h) ht
        · exact Or.inr h
    · simp only [updA, if_neg hk, List.mem_cons, ih]

/-! ### C6 — `should_continue` semantics -/

/-- C6: for every tracker state, `should_continue(error_type, threshold,
window_seconds)` returns true iff the type has never been logged (no
`error_counts` entry), or its count is strictly below the threshold, or more
than `window_seconds` have elapsed since the type's last error; in the
elapsed case with the count at or above the threshold it resets that type's
count to zero, and in every other case it leaves the state unchanged (and
returns false when no disjunct holds). -/
theorem C6_should_continue_semantics (s : TrackerState) (t : String)
    (threshold : Nat) (w now : Rat) :
    ((should_continue s t threshold w now).1 = true ↔
      (lookupA s.error_counts t = none ∨
       (∃ c, lookupA s.error_counts t = some c ∧ c < threshold) ∨
       now - (lookupA s.last_error_time t).getD 0 > w))
    ∧ ((∃ c, lookupA s.error_counts t = some c ∧ threshold ≤ c) →
        now - (lookupA s.last_error_time t).getD 0 > w →
        (should_continue s t threshold w now).2 =
          { s with error_counts := updA s.error_counts t 0 } ∧
        lookupA (should_continue s t threshold w now).2.error_counts t = some 0)
    ∧ ((lookupA s.error_counts t = none ∨
        (∃ c, lookupA s.error_counts t = some c ∧ c < threshold) ∨
        ¬ now - (lookupA s.last_error_time t).getD 0 > w) →
        (should_continue s t threshold w now).2 = s) := by
  rcases hc : lookupA s.error_counts t with _ | c
  · have hval : should_continue s t threshold w now = (true, s) := by
      simp [should_continue, hc]
    rw [hval]
    refine ⟨⟨fun _ => Or.inl rfl, fun _ => rfl⟩, ?_, fun _ => rfl⟩
    rintro ⟨c, hcs, -⟩ -
    exact Option.noConfusion hcs
  · by_cases hlt : c < threshold
    · have hval : should_continue s t threshold w now = (true, s) := by
        simp [should_continue, hc, hlt]
      rw [hval]
      refine ⟨⟨fun _ => Or.inr (Or.inl ⟨c, rfl, hlt⟩), fun _ => rfl⟩, ?_, fun _ => rfl⟩
      rintro ⟨c', hcs, hge⟩ -
      injection hcs with h
      exact absurd hge (by omega)
    · by_cases hw : now - (lookupA s.last_error_time t).getD 0 > w
      · have hval : should_continue s t threshold w now =
            (true, { s with error_counts := updA s.error_counts t 0 }) := by
          simp [should_continue, hc, hlt, hw]
        rw [hval]
        refine ⟨⟨fun _ => Or.inr (Or.inr hw), fun _ => rfl⟩, ?_, ?_⟩
        · rintro - -
          exact ⟨rfl, by simp [lookupA_updA]⟩
        · rintro (h | ⟨c', hcs, hlt'⟩ | h)
          · exact Option.noConfusion h
          · injection hcs with h
            exact absurd hlt' (by omega)
          · exact absurd hw h
      · have hval : should_continue s t threshold w now = (false, s) := by
          simp [should_continue, hc, hlt, hw]
        rw [hval]
        refine ⟨?_, ?_, fun _ => rfl⟩
        · constructor
          · intro h
            exact absurd h (by simp)
          · rintro (h | ⟨c', hcs, hlt'⟩ | h)
            · exact Option.noConfusion h
            · injection hcs with h
              exact absurd hlt' (by omega)
            · exact absurd h hw
        · rintro - hw'
          exact absurd hw' hw

/-- C6 witness: five errors of one type logged at time 100 (threshold 5):
within the window (now = 120, window 60) the answer is false; after the
window has elapsed (now = 200) the answer is true and the count resets. -/
theorem C6_should_continue_semantics_witness :
    (∃ c, lookupA (TrackerState.mk "./logs" [("e", 5)] [("e", 100)] []).error_counts "e" =
        some c ∧ 5 ≤ c) ∧
    (200 : Rat) - (lookupA (TrackerState.mk "./logs" [("e", 5)] [("e", 100)] []).last_error_time "e").getD 0 > 60 ∧
    ((should_continue (TrackerState.mk "./logs" [("e", 5)] [("e", 100)] []) "e" 5 60 200).2 =
      { TrackerState.mk "./logs" [("e", 5)] [("e", 100)] [] with
        error_counts := updA [("e", 5)] "e" 0 } ∧
     lookupA (should_continue (TrackerState.mk "./logs" [("e", 5)] [("e", 100)] []) "e" 5 60 200).2.error_counts "e" = some 0) :=
  ⟨⟨5, rfl, le_refl 5⟩, by norm_num [lookupA],
    (C6_should_continue_semantics (TrackerState.mk "./logs" [("e", 5)] [("e", 100)] []) "e" 5 60 200).2.1
      ⟨5, rfl, le_refl 5⟩ (by norm_num [lookupA])⟩

/-! ### C8 — `log_error` totality -/

/-- C8 counterexample: when the file append fails, `log_error` raises to its
caller (the `with open` block of src/utils/error_logger.py lines 45-46 is
unguarded), contradicting the claim that it never raises. -/
theorem C8_counterexample :
    (log_error TrackerState.mk0 "rate_limit" "details" "openai" 5
        "2026-01-01 00:00:00" "2026-01-01" [] false).2.2 =
      Except.error "file append failed" ∧
    ¬ ∃ e, (log_error TrackerState.mk0 "rate_limit" "details" "openai" 5
        "2026-01-01 00:00:00" "2026-01-01" [] false).2.2 = Except.ok e := by
  constructor
  · rfl
  · rintro ⟨e, he⟩
    simp [log_error] at he

/-- C8 (amended): `log_error` increments the type's count, records the
current time as the type's last-error time, and — when the file append
succeeds — appends exactly one JSON line
`{timestamp, api_type, error_type, details, count}` to the daily log file
`<log_dir>/<api_type>_errors_<YYYY-MM-DD>.log`; when the file append fails
the exception propagates to the caller (no line is written, but the
in-memory count and last-error time have already been updated). -/
theorem C8_log_error_amended (s : TrackerState) (et d api : String)
    (now : Rat) (ts ds : String) (files : List (String × String)) (ok : Bool) :
    (lookupA (log_error s et d api now ts ds files ok).1.error_counts et =
      some (((lookupA s.error_counts et).getD 0) + 1))
    ∧ (lookupA (log_error s et d api now ts ds files ok).1.last_error_time et = some now)
    ∧ (∀ t, t ≠ et →
        lookupA (log_error s et d api now ts ds files ok).1.error_counts t =
          lookupA s.error_counts t ∧
        lookupA (log_error s et d api now ts ds files ok).1.last_error_time t =
          lookupA s.last_error_time t)
    ∧ (ok = true →
        (log_error s et d api now ts ds files ok).2.1 =
          files ++ [(log_filename s.log_dir api ds,
            dumpsLogEntry ⟨ts, api, et, d, ((lookupA s.error_counts et).getD 0) + 1⟩ ++ "\n")] ∧
        (log_error s et d api now ts ds files ok).2.2 =
          Except.ok ⟨ts, api, et, d, ((lookupA s.error_counts et).getD 0) + 1⟩)
    ∧ (ok = false →
        (log_error s et d api now ts ds files ok).2.1 = files ∧
        (log_error s et d api now ts ds files ok).2.2 =
          Except.error "file append failed") := by
  unfold log_error bumpError
  cases ok with
  | true =>
    refine ⟨by simp [lookupA_updA], by simp [lookupA_updA], ?_, by simp, by simp⟩
    intro t ht
    have hne : ¬ et = t := fun h => ht h.symm
    constructor
    · simp [lookupA_updA, hne]
    · simp [lookupA_updA, hne]
  | false =>
    refine ⟨by simp [lookupA_updA], by simp [lookupA_updA], ?_, by simp, by simp⟩
    intro t ht
    have hne : ¬ et = t := fun h => ht h.symm
    constructor
    · simp [lookupA_updA, hne]
    · simp [lookupA_updA, hne]

/-- C8 witness: a successful append at a concrete input, via the amended
theorem. -/
theorem C8_log_error_amended_witness :
    (true = true) ∧
    ((log_error TrackerState.mk0 "rate_limit" "d" "openai" 5 "ts" "2026-01-01" [] true).2.1 =
      [("./logs/openai_errors_2026-01-01.log",
        dumpsLogEntry ⟨"ts", "openai", "rate_limit", "d", 1⟩ ++ "\n")] ∧
     (log_error TrackerState.mk0 "rate_limit" "d" "openai" 5 "ts" "2026-01-01" [] true).2.2 =
      Except.ok ⟨"ts", "openai", "rate_limit", "d", 1⟩) :=
  ⟨rfl,
    (C8_log_error_amended TrackerState.mk0 "rate_limit" "d" "openai" 5 "ts"
      "2026-01-01" [] true).2.2.2.1 rfl⟩

/-! ### C9 — label lookup semantics -/

/-- C9 counterexample: a truthy response without a `results` key (for
example `{"size": 0}`) makes `fetch_labels` return `False`
(`json_data.get("results", [])` defaults to the empty list), not an absent
result as the claim states for malformed responses. -/
theorem C9_counterexample :
    fetch_labels (some ⟨none, 1⟩) = some false ∧
    fetch_labels (some ⟨none, 1⟩) ≠ none := by
  constructor
  · rfl
  · intro h
    simp [fetch_labels, labelsTruthy] at h

/-- C9 (amended): `fetch_labels` returns true exactly when the (truthy)
response's `results` list — defaulted to empty when the key is missing —
contains an entry named exactly `internal_only`; it returns false when that
list contains no such entry (including when the `results` key is absent);
and it returns an absent result exactly when the API call yields no result
or yields a falsy (empty) response object. -/
theorem C9_fetch_labels_amended (resp : Option LabelsResponse) :
    (resp = none → fetch_labels resp = none)
    ∧ (∀ j, resp = some j → labelsTruthy j = false → fetch_labels resp = none)
    ∧ (∀ j, resp = some j → labelsTruthy j = true →
        (fetch_labels resp = some true ↔
          ∃ it ∈ j.results.getD [], it.name = some "internal_only"))
    ∧ (∀ j, resp = some j → labelsTruthy j = true →
        (fetch_labels resp = some false ↔
          ∀ it ∈ j.results.getD [], ¬ it.name = some "internal_only")) := by
  refine ⟨?_, ?_, ?_, ?_⟩
  · rintro rfl
    rfl
  · rintro j rfl hf
    simp [fetch_labels, hf]
  · rintro j rfl ht
    simp [fetch_labels, ht, List.any_eq_true]
  · rintro j rfl ht
    simp [fetch_labels, ht, List.any_eq_false]

/-- C9 witness: a response whose results hold an `internal_only` label
yields true, via the amended theorem. -/
theorem C9_fetch_labels_amended_witness :
    (labelsTruthy ⟨some [⟨some "internal_only"⟩], 0⟩ = true) ∧
    (fetch_labels (some ⟨some [⟨some "internal_only"⟩], 0⟩) = some true ↔
      ∃ it ∈ (some [(⟨some "internal_only"⟩ : LabelItem)]).getD [],
        it.name = some "internal_only") :=
  ⟨rfl,
    (C9_fetch_labels_amended (some ⟨some [⟨some "internal_only"⟩], 0⟩)).2.2.1
      ⟨some [⟨some "internal_only"⟩], 0⟩ rfl rfl⟩

/-! ### C5 — chat-completion rate-limit backoff -/

/-- C5 counterexample: with every attempt rate-limited, the waits before
retries 1, 2, 3 of `get_chat_completion_messages` are 10, 20, 40 seconds —
not 5, 10, 20 as claimed (`retry_count` is incremented *before*
`wait_time = (2 ** retry_count) * 5` in src/utils/openai_logic.py
lines 83-84). -/
theorem C5_counterexample :
    (get_chat_completion_messages (fun _ => ChatOutcome.rateLimit "rl")).2.1 =
      [10, 20, 40] ∧
    (get_chat_completion_messages (fun _ => ChatOutcome.rateLimit "rl")).2.1 ≠
      ([5, 10, 20] : List Rat) := by
  have h : (get_chat_completion_messages (fun _ => ChatOutcome.rateLimit "rl")).2.1 =
      [10, 20, 40] := by
    simp only [get_chat_completion_messages, chatLoop]
    norm_num
  refine ⟨h, ?_⟩
  rw [h]
  intro hEq
  have h10 := congrArg (fun l : List Rat => l.headI) hEq
  simp only [List.headI] at h10
  norm_num at h10

/-- C5 (amended): when every attempt raises a rate-limit error, the waits
before retries 1, 2 and 3 are exactly 10, 20 and 40 seconds; exactly 4
completion calls are made (the initial attempt plus 3 retries, never a 4th
retry), and after the 3rd retry fails the function returns the fixed
apologetic message instead of raising. -/
theorem C5_backoff_amended (attempt : Nat → ChatOutcome)
    (h : ∀ i, ∃ m, attempt i = ChatOutcome.rateLimit m) :
    get_chat_completion_messages attempt = (apologyRateLimit, [10, 20, 40], 4) := by
  obtain ⟨m0, h0⟩ := h 0
  obtain ⟨m1, h1⟩ := h 1
  obtain ⟨m2, h2⟩ := h 2
  obtain ⟨m3, h3⟩ := h 3
  simp only [get_chat_completion_messages, chatLoop, h0, h1, h2, h3]
  norm_num

/-- C5 witness: the amended theorem applied to the constant rate-limited
environment. -/
theorem C5_backoff_amended_witness :
    (∀ i : Nat, ∃ m, (fun _ : Nat => ChatOutcome.rateLimit "rl") i =
      ChatOutcome.rateLimit m) ∧
    get_chat_completion_messages (fun _ => ChatOutcome.rateLimit "rl") =
      (apologyRateLimit, [10, 20, 40], 4) :=
  ⟨fun _ => ⟨"rl", rfl⟩,
    C5_backoff_amended (fun _ => ChatOutcome.rateLimit "rl") (fun _ => ⟨"rl", rfl⟩)⟩

/-! ### C3 — CSV cleaning -/

theorem keepRow_iff (r : InRow) :
    keepRow r = decide (r.content ≠ none ∧ r.content ≠ some "") := by
  rcases r with ⟨rid, tl, c⟩
  rcases c with _ | c
  · simp [keepRow]
  · simp only [keepRow]
    rw [decide_eq_decide]
    simp

/-- C3: for every input frame with columns `id`, `tiny_link`, `content`,
`clean_data_pinecone_schema` drops exactly the rows whose `content` is
absent or the empty string; every surviving row has only the columns `id`
(coerced to string) and `metadata`, the JSON encoding of
`{source: tiny_link, text: content}`; the output columns are always
`id`/`metadata`, and when a required column is missing the output rows are
empty. -/
theorem C3_clean_data_schema (df : InFrame) :
    (clean_data_pinecone_schema df).1 = ["id", "metadata"]
    ∧ (("id" ∈ df.cols ∧ "tiny_link" ∈ df.cols ∧ "content" ∈ df.cols) →
        (clean_data_pinecone_schema df).2 =
          (df.rows.filter
              (fun r => decide (r.content ≠ none ∧ r.content ≠ some ""))).map
            (fun r => OutRow.mk r.id.toStr
              (jsonDumpsSourceText r.tiny_link (r.content.getD ""))))
    ∧ (¬ ("id" ∈ df.cols ∧ "tiny_link" ∈ df.cols ∧ "content" ∈ df.cols) →
        (clean_data_pinecone_schema df).2 = []) := by
  have hfilter : df.rows.filter
      (fun r => decide (r.content ≠ none ∧ r.content ≠ some "")) =
      df.rows.filter keepRow := by
    apply List.filter_congr
    intro r _
    exact (keepRow_iff r).symm
  by_cases hcols : "id" ∈ df.cols ∧ "tiny_link" ∈ df.cols ∧ "content" ∈ df.cols
  · by_cases hkept : df.rows.filter keepRow = []
    · refine ⟨?_, ?_, fun h => absurd hcols h⟩
      · simp [clean_data_pinecone_schema, hcols, hkept]
      · intro _
        rw [hfilter, hkept]
        simp [clean_data_pinecone_schema, hcols, hkept]
    · refine ⟨?_, ?_, fun h => absurd hcols h⟩
      · simp [clean_data_pinecone_schema, hcols, hkept]
      · intro _
        rw [hfilter]
        simp only [clean_data_pinecone_schema, hcols, and_self, if_true, hkept,
          if_neg hkept]
        rfl
  · refine ⟨?_, fun h => absurd h hcols, fun _ => ?_⟩
    · simp [clean_data_pinecone_schema, hcols]
    · simp [clean_data_pinecone_schema, hcols]

/-- C3 witness: a concrete frame with one kept row (integer id), one row
with absent content and one with empty content, via the theorem. -/
theorem C3_clean_data_schema_witness :
    ("id" ∈ ["id", "tiny_link", "content"] ∧
     "tiny_link" ∈ ["id", "tiny_link", "content"] ∧
     "content" ∈ ["id", "tiny_link", "content"]) ∧
    (clean_data_pinecone_schema
        (InFrame.mk ["id", "tiny_link", "content"]
          [InRow.mk (Cell.i 7) "/x" (some "hello"),
           InRow.mk (Cell.s "8") "/y" none,
           InRow.mk (Cell.s "9") "/z" (some "")])).2 =
      ((InFrame.mk ["id", "tiny_link", "content"]
          [InRow.mk (Cell.i 7) "/x" (some "hello"),
           InRow.mk (Cell.s "8") "/y" none,
           InRow.mk (Cell.s "9") "/z" (some "")]).rows.filter
          (fun r => decide (r.content ≠ none ∧ r.content ≠ some ""))).map
        (fun r => OutRow.mk r.id.toStr
          (jsonDumpsSourceText r.tiny_link (r.content.getD ""))) :=
  ⟨⟨by decide, by decide, by decide⟩,
    (C3_clean_data_schema
      (InFrame.mk ["id", "tiny_link", "content"]
        [InRow.mk (Cell.i 7) "/x" (some "hello"),
         InRow.mk (Cell.s "8") "/y" none,
         InRow.mk (Cell.s "9") "/z" (some "")])).2.1
      ⟨by decide, by decide, by decide⟩⟩

/-! ### C2 — pagination of `get_all_spaces_list` -/

theorem range_map_shift (start n : Nat) :
    (List.range (n + 1)).map (fun i => start + 100 * i) =
      start :: (List.range n).map (fun i => start + 100 + 100 * i) := by
  rw [List.range_succ_eq_map]
  simp only [List.map_cons, List.map_map]
  refine congrArg₂ List.cons (by norm_num) ?_
  apply List.map_congr_left
  intro i _
  simp only [Function.comp_apply, Nat.succ_eq_add_one]
  ring

theorem get_all_spaces_aux_spec (fetch : Nat → Option SpacesResponse) :
    ∀ (front : List SpacesResponse) (last : SpacesResponse) (start fuel : Nat),
      front.length + 1 ≤ fuel →
      (∀ i, i ≤ front.length → fetch (start + 100 * i) = (front ++ [last])[i]?) →
      (∀ p ∈ front ++ [last], ∃ rs, p.results = some rs ∧ rs ≠ []) →
      (∀ p ∈ front, p.next = true) →
      last.next = false →
      get_all_spaces_aux fetch fuel start =
        (((front ++ [last]).map (fun p => p.results.getD [])).flatten,
         (List.range (front.length + 1)).map (fun i => start + 100 * i)) := by
  intro front
  induction front with
  | nil =>
    intro last start fuel hfuel hfetch hres hfront hlast
    obtain ⟨f, rfl⟩ : ∃ f, fuel = f + 1 := ⟨fuel - 1, by omega⟩
    have h0 : fetch start = some last := by
      have h := hfetch 0 (by simp)
      simpa using h
    obtain ⟨rs, hrs, hne⟩ := hres last (by simp)
    have hnext : ¬ last.next = true := by simp [hlast]
    simp only [get_all_spaces_aux, h0, hrs]
    rw [if_neg hne, if_neg hnext]
    simp [hrs, List.range_succ]
  | cons p front ih =>
    intro last start fuel hfuel hfetch hres hfront hlast
    obtain ⟨f, rfl⟩ : ∃ f, fuel = f + 1 := ⟨fuel - 1, by omega⟩
    have h0 : fetch start = some p := by
      have h := hfetch 0 (by simp)
      simpa using h
    obtain ⟨rs, hrs, hne⟩ := hres p (by simp)
    have hpnext : p.next = true := hfront p (by simp)
    have hshift : ∀ i, i ≤ front.length →
        fetch (start + 100 + 100 * i) = (front ++ [last])[i]? := by
      intro i hi
      have h := hfetch (i + 1) (by simp only [List.length_cons]; omega)
      have harith : start + 100 * (i + 1) = start + 100 + 100 * i := by ring
      rw [harith] at h
      simpa using h
    have hrec := ih last (start + 100) f
      (by simp only [List.length_cons] at hfuel; omega)
      hshift
      (fun q hq => hres q (by simp only [List.cons_append, List.mem_cons]; exact Or.inr hq))
      (fun q hq => hfront q (List.mem_cons_of_mem _ hq))
      hlast
    simp only [get_all_spaces_aux, h0, hrs]
    rw [if_neg hne, if_pos hpnext, hrec]
    conv_rhs =>
      rw [show (p :: front).length = front.length + 1 from rfl, range_map_shift]
    simp [hrs]

theorem get_all_spaces_aux_empty_stop (fetch : Nat → Option SpacesResponse) :
    ∀ (front : List SpacesResponse) (pe : SpacesResponse) (start fuel : Nat),
      front.length + 1 ≤ fuel →
      (∀ i, i ≤ front.length → fetch (start + 100 * i) = (front ++ [pe])[i]?) →
      (∀ p ∈ front, ∃ rs, p.results = some rs ∧ rs ≠ []) →
      (∀ p ∈ front, p.next = true) →
      pe.results = some [] →
      get_all_spaces_aux fetch fuel start =
        ((front.map (fun p => p.results.getD [])).flatten,
         (List.range (front.length + 1)).map (fun i => start + 100 * i)) := by
  intro front
  induction front with
  | nil =>
    intro pe start fuel hfuel hfetch hres hfront hpe
    obtain ⟨f, rfl⟩ : ∃ f, fuel = f + 1 := ⟨fuel - 1, by omega⟩
    have h0 : fetch start = some pe := by
      have h := hfetch 0 (by simp)
      simpa using h
    simp only [get_all_spaces_aux, h0, hpe]
    rw [if_true]
    simp [List.range_succ]
  | cons p front ih =>
    intro pe start fuel hfuel hfetch hres hfront hpe
    obtain ⟨f, rfl⟩ : ∃ f, fuel = f + 1 := ⟨fuel - 1, by omega⟩
    have h0 : fetch start = some p := by
      have h := hfetch 0 (by simp)
      simpa using h
    obtain ⟨rs, hrs, hne⟩ := hres p (by simp)
    have hpnext : p.next = true := hfront p (by simp)
    have hshift : ∀ i, i ≤ front.length →
        fetch (start + 100 + 100 * i) = (front ++ [pe])[i]? := by
      intro i hi
      have h := hfetch (i + 1) (by simp only [List.length_cons]; omega)
      have harith : start + 100 * (i + 1) = start + 100 + 100 * i := by ring
      rw [harith] at h
      simpa using h
    have hrec := ih pe (start + 100) f
      (by simp only [List.length_cons] at hfuel; omega)
      hshift
      (fun q hq => hres q (List.mem_cons_of_mem _ hq))
      (fun q hq => hfront q (List.mem_cons_of_mem _ hq))
      hpe
    simp only [get_all_spaces_aux, h0, hrs]
    rw [if_neg hne, if_pos hpnext, hrec]
    conv_rhs =>
      rw [show (p :: front).length = front.length + 1 from rfl, range_map_shift]
    simp [hrs]

/-- C2 counterexample: the two-page sequence
`[{results: [], _links.next: present}, {results: ["a"], no next}]` — each
page carries a results list and only the last page omits the next link —
makes `get_all_spaces_list` stop at the first (empty) page and return `[]`
instead of the concatenation `["a"]` of all pages' results (the
`if not results: break` on src/utils/confluence_api.py lines 58-59 fires
before the next link is consulted). -/
def cexFetchC2 : Nat → Option SpacesResponse :=
  fun s =>
    if s = 0 then some ⟨some [], true⟩
    else if s = 100 then some ⟨some ["a"], false⟩ else none

/-- C2 counterexample theorem: see `cexFetchC2`. -/
theorem C2_counterexample :
    get_all_spaces_list cexFetchC2 5 = [] ∧
    get_all_spaces_list cexFetchC2 5 ≠ ["a"] ∧
    (get_all_spaces_aux cexFetchC2 5 0).2 = [0] := by
  refine ⟨rfl, ?_, rfl⟩
  intro h
  rw [show get_all_spaces_list cexFetchC2 5 = [] from rfl] at h
  exact List.noConfusion h

/-- C2 (amended): for every sequence of spaces responses in which each page
carries a *non-empty* results list and only the last page omits the
`_links.next` link, `get_all_spaces_list` returns exactly the concatenation
of all pages' results in order, requests pages at ascending start offsets
0, 100, 200, ..., and issues no request beyond the page lacking next; when
the first response is absent, or any page's results list is empty
(iteration stops there), it returns the spaces accumulated so far — in
particular an empty list when that is the first page. -/
theorem C2_pagination_amended :
    (∀ (front : List SpacesResponse) (last : SpacesResponse)
       (fetch : Nat → Option SpacesResponse) (fuel : Nat),
      front.length + 1 ≤ fuel →
      (∀ i, i ≤ front.length → fetch (100 * i) = (front ++ [last])[i]?) →
      (∀ p ∈ front ++ [last], ∃ rs, p.results = some rs ∧ rs ≠ []) →
      (∀ p ∈ front, p.next = true) →
      last.next = false →
      get_all_spaces_list fetch fuel =
        ((front ++ [last]).map (fun p => p.results.getD [])).flatten ∧
      (get_all_spaces_aux fetch fuel 0).2 =
        (List.range (front.length + 1)).map (fun i => 100 * i))
    ∧ (∀ (fetch : Nat → Option SpacesResponse) (fuel : Nat),
        fetch 0 = none → get_all_spaces_list fetch (fuel + 1) = [])
    ∧ (∀ (fetch : Nat → Option SpacesResponse) (fuel : Nat) (j : SpacesResponse),
        fetch 0 = some j → j.results = some [] →
        get_all_spaces_list fetch (fuel + 1) = [])
    ∧ (∀ (front : List SpacesResponse) (pe : SpacesResponse)
         (fetch : Nat → Option SpacesResponse) (fuel : Nat),
        front.length + 1 ≤ fuel →
        (∀ i, i ≤ front.length → fetch (100 * i) = (front ++ [pe])[i]?) →
        (∀ p ∈ front, ∃ rs, p.results = some rs ∧ rs ≠ []) →
        (∀ p ∈ front, p.next = true) →
        pe.results = some [] →
        get_all_spaces_list fetch fuel =
          (front.map (fun p => p.results.getD [])).flatten ∧
        (get_all_spaces_aux fetch fuel 0).2 =
          (List.range (front.length + 1)).map (fun i => 100 * i)) := by
  refine ⟨?_, ?_, ?_, ?_⟩
  · intro front last fetch fuel hfuel hfetch hres hfront hlast
    have h := get_all_spaces_aux_spec fetch front last 0 fuel hfuel
      (by simpa using hfetch) hres hfront hlast
    constructor
    · unfold get_all_spaces_list
      rw [h]
    · rw [h]
      simp
  · intro fetch fuel h0
    simp [get_all_spaces_list, get_all_spaces_aux, h0]
  · intro fetch fuel j h0 hres
    simp [get_all_spaces_list, get_all_spaces_aux, h0, hres]
  · intro front pe fetch fuel hfuel hfetch hres hfront hpe
    have h := get_all_spaces_aux_empty_stop fetch front pe 0 fuel hfuel
      (by simpa using hfetch) hres hfront hpe
    constructor
    · unfold get_all_spaces_list
      rw [h]
    · rw [h]
      simp

/-- C2 witness: a concrete two-page sequence with non-empty results, via the
amended theorem. -/
theorem C2_pagination_amended_witness :
    (([(⟨some ["x", "y"], true⟩ : SpacesResponse)].length + 1 ≤ 5) ∧
     (⟨some ["z"], false⟩ : SpacesResponse).next = false) ∧
    (get_all_spaces_list
        (fun s => if s = 0 then some ⟨some ["x", "y"], true⟩
                  else if s = 100 then some ⟨some ["z"], false⟩ else none) 5 =
      (([(⟨some ["x", "y"], true⟩ : SpacesResponse)] ++
          [(⟨some ["z"], false⟩ : SpacesResponse)]).map
        (fun p => p.results.getD [])).flatten ∧
     (get_all_spaces_aux
        (fun s => if s = 0 then some ⟨some ["x", "y"], true⟩
                  else if s = 100 then some ⟨some ["z"], false⟩ else none) 5 0).2 =
      (List.range ([(⟨some ["x", "y"], true⟩ : SpacesResponse)].length + 1)).map
        (fun i => 100 * i)) :=
  ⟨⟨by norm_num, rfl⟩,
    (C2_pagination_amended).1 [⟨some ["x", "y"], true⟩] ⟨some ["z"], false⟩
      (fun s => if s = 0 then some ⟨some ["x", "y"], true⟩
                else if s = 100 then some ⟨some ["z"], false⟩ else none) 5
      (by norm_num)
      (by
        intro i hi
        rcases Nat.le_one_iff_eq_zero_or_eq_one.mp hi with rfl | rfl
        · rfl
        · rfl)
      (by
        intro q hq
        rw [List.mem_append, List.mem_singleton, List.mem_singleton] at hq
        rcases hq with rfl | rfl
        · exact ⟨["x", "y"], rfl, by simp⟩
        · exact ⟨["z"], rfl, by simp⟩)
      (by
        intro q hq
        rw [List.mem_singleton] at hq
        subst hq
        rfl)
      rfl⟩

/-! ### C10 — `get_error_summary` is observation-only -/

/-- The type has a recorded last-error time that is positive. -/
def hasPosTime (s : TrackerState) (t : String) : Prop :=
  ∃ v, (t, v) ∈ s.last_error_time ∧ 0 < v

theorem should_continue_last_error_time (s : TrackerState) (t : String)
    (th : Nat) (w now : Rat) :
    ((should_continue s t th w now).2).last_error_time = s.last_error_time := by
  unfold should_continue
  cases lookupA s.error_counts t with
  | none => rfl
  | some c =>
    try dsimp only
    split_ifs <;> rfl

theorem should_continue_success_counts (s : TrackerState) (t : String)
    (th : Nat) (w now : Rat) :
    ((should_continue s t th w now).2).success_counts = s.success_counts := by
  unfold should_continue
  cases lookupA s.error_counts t with
  | none => rfl
  | some c =>
    try dsimp only
    split_ifs <;> rfl

theorem runOps_hasPosTime (ops : List TrackerOp) :
    ∀ (s : TrackerState),
      (∀ t d τ, TrackerOp.logError t d τ ∈ ops → 0 < τ) →
      ∀ t, hasPosTime (runOps s ops) t ↔
        (hasPosTime s t ∨ ∃ d τ, TrackerOp.logError t d τ ∈ ops) := by
  induction ops with
  | nil =>
    intro s _ t
    simp [runOps]
  | cons op rest ih =>
    intro s hpos t
    have hrest : ∀ t d τ, TrackerOp.logError t d τ ∈ rest → 0 < τ :=
      fun t' d τ h => hpos t' d τ (List.mem_cons_of_mem _ h)
    have hstep : hasPosTime (runOps s (op :: rest)) t ↔
        (hasPosTime (applyOp s op) t ∨ ∃ d τ, TrackerOp.logError t d τ ∈ rest) := by
      simp only [runOps]
      exact ih (applyOp s op) hrest t
    rw [hstep]
    cases op with
    | logSuccess o =>
      have heq : hasPosTime (applyOp s (TrackerOp.logSuccess o)) t ↔ hasPosTime s t :=
        Iff.rfl
      rw [heq]
      constructor
      · rintro (h | ⟨d, τ, hm⟩)
        · exact Or.inl h
        · exact Or.inr ⟨d, τ, List.mem_cons_of_mem _ hm⟩
      · rintro (h | ⟨d, τ, hm⟩)
        · exact Or.inl h
        · rcases List.mem_cons.mp hm with habs | hm'
          · exact absurd habs (by simp)
          · exact Or.inr ⟨d, τ, hm'⟩
    | shouldContinue t' th w now =>
      have heq : hasPosTime (applyOp s (TrackerOp.shouldContinue t' th w now)) t ↔
          hasPosTime s t := by
        unfold hasPosTime
        rw [show (applyOp s (TrackerOp.shouldContinue t' th w now)).last_error_time =
          s.last_error_time from should_continue_last_error_time s t' th w now]
      rw [heq]
      constructor
      · rintro (h | ⟨d, τ, hm⟩)
        · exact Or.inl h
        · exact Or.inr ⟨d, τ, List.mem_cons_of_mem _ hm⟩
      · rintro (h | ⟨d, τ, hm⟩)
        · exact Or.inl h
        · rcases List.mem_cons.mp hm with habs | hm'
          · exact absurd habs (by simp)
          · exact Or.inr ⟨d, τ, hm'⟩
    | logError t' d τ =>
      by_cases ht : t = t'
      · subst ht
        have hτ : 0 < τ := hpos t d τ (List.mem_cons_self _ _)
        constructor
        · intro _
          exact Or.inr ⟨d, τ, List.mem_cons_self _ _⟩
        · intro _
          exact Or.inl ⟨τ, self_mem_updA _ _ _, hτ⟩
      · have heq : hasPosTime (applyOp s (TrackerOp.logError t' d τ)) t ↔
            hasPosTime s t := by
          unfold hasPosTime
          constructor
          · rintro ⟨v, hm, hv⟩
            exact ⟨v, (mem_updA_ne _ _ _ _ _ ht).mp hm, hv⟩
          · rintro ⟨v, hm, hv⟩
            exact ⟨v, (mem_updA_ne _ _ _ _ _ ht).mpr hm, hv⟩
        rw [heq]
        constructor
        · rintro (h | ⟨d', τ', hm⟩)
          · exact Or.inl h
          · exact Or.inr ⟨d', τ', List.mem_cons_of_mem _ hm⟩
        · rintro (h | ⟨d', τ', hm⟩)
          · exact Or.inl h
          · rcases List.mem_cons.mp hm with habs | hm'
            · injection habs with h1 h2 h3
              exact absurd h1 ht
            · exact Or.inr ⟨d', τ', hm'⟩

/-- C10: `get_error_summary` is observation-only: on every reachable tracker
state (any sequence of tracker operations with positive `time.time()`
values) it returns the state unchanged — the per-type error counts, the
per-operation success counts and the per-type last-error times are exactly
as before the call — and in the returned summary `total_errors` equals the
sum of the per-type error counts, with a seconds-since-last-error entry
present exactly for the types that have at least one logged error. -/
theorem C10_get_error_summary_observation_only (ops : List TrackerOp) (now : Rat)
    (hpos : ∀ t d τ, TrackerOp.logError t d τ ∈ ops → 0 < τ) :
    (get_error_summary (runOps TrackerState.mk0 ops) now).2 = runOps TrackerState.mk0 ops
    ∧ (get_error_summary (runOps TrackerState.mk0 ops) now).1.total_errors =
        (((runOps TrackerState.mk0 ops).error_counts).map (fun p => p.2)).sum
    ∧ (get_error_summary (runOps TrackerState.mk0 ops) now).1.error_types =
        (runOps TrackerState.mk0 ops).error_counts
    ∧ (get_error_summary (runOps TrackerState.mk0 ops) now).1.success_counts =
        (runOps TrackerState.mk0 ops).success_counts
    ∧ (∀ t, (∃ x, (t, x) ∈
          (get_error_summary (runOps TrackerState.mk0 ops) now).1.time_since_last_error) ↔
        (∃ d τ, TrackerOp.logError t d τ ∈ ops)) := by
  refine ⟨rfl, rfl, rfl, rfl, ?_⟩
  intro t
  have hentry : (∃ x, (t, x) ∈
      (get_error_summary (runOps TrackerState.mk0 ops) now).1.time_since_last_error) ↔
      hasPosTime (runOps TrackerState.mk0 ops) t := by
    simp only [get_error_summary, hasPosTime, List.mem_map, List.mem_filter,
      decide_eq_true_eq]
    constructor
    · rintro ⟨x, ⟨t', v⟩, ⟨hm, hv⟩, heq⟩
      have h1 : t' = t := congrArg Prod.fst heq
      subst h1
      exact ⟨v, hm, hv⟩
    · rintro ⟨v, hm, hv⟩
      exact ⟨roundTo2 (now - v), ⟨t, v⟩, ⟨hm, hv⟩, rfl⟩
  rw [hentry, runOps_hasPosTime ops TrackerState.mk0 hpos t]
  have hmk0 : ¬ hasPosTime TrackerState.mk0 t := by
    rintro ⟨v, hm, -⟩
    simp [TrackerState.mk0] at hm
  constructor
  · rintro (h | h)
    · exact absurd h hmk0
    · exact h
  · exact fun h => Or.inr h

/-- C10 witness: the summary after one logged error and one logged success,
via the theorem. -/
theorem C10_get_error_summary_observation_only_witness :
    (∀ t d τ, TrackerOp.logError t d τ ∈
        [TrackerOp.logError "rate_limit" "d" 5, TrackerOp.logSuccess "emb"] → 0 < τ) ∧
    ((get_error_summary
        (runOps TrackerState.mk0
          [TrackerOp.logError "rate_limit" "d" 5, TrackerOp.logSuccess "emb"]) 9).2 =
      runOps TrackerState.mk0
        [TrackerOp.logError "rate_limit" "d" 5, TrackerOp.logSuccess "emb"] ∧
     ∀ t, (∃ x, (t, x) ∈
        (get_error_summary
          (runOps TrackerState.mk0
            [TrackerOp.logError "rate_limit" "d" 5, TrackerOp.logSuccess "emb"]) 9).1.time_since_last_error) ↔
        (∃ d τ, TrackerOp.logError t d τ ∈
          [TrackerOp.logError "rate_limit" "d" 5, TrackerOp.logSuccess "emb"])) :=
  ⟨fun t d τ h => by
      rcases List.mem_cons.mp h with h1 | h1
      · injection h1 with h2 h3 h4
        rw [h4]
        norm_num
      · rcases List.mem_cons.mp h1 with h2 | h2
        · exact absurd h2 (by simp)
        · exact absurd h2 (by simp),
    ⟨(C10_get_error_summary_observation_only
        [TrackerOp.logError "rate_limit" "d" 5, TrackerOp.logSuccess "emb"] 9
        (fun t d τ h => by
          rcases List.mem_cons.mp h with h1 | h1
          · injection h1 with h2 h3 h4
            rw [h4]
            norm_num
          · rcases List.mem_cons.mp h1 with h2 | h2
            · exact absurd h2 (by simp)
            · exact absurd h2 (by simp))).1,
     (C10_get_error_summary_observation_only
        [TrackerOp.logError "rate_limit" "d" 5, TrackerOp.logSuccess "emb"] 9
        (fun t d τ h => by
          rcases List.mem_cons.mp h with h1 | h1
          · injection h1 with h2 h3 h4
            rw [h4]
            norm_num
          · rcases List.mem_cons.mp h1 with h2 | h2
            · exact absurd h2 (by simp)
            · exact absurd h2 (by simp))).2.2.2.2⟩⟩

/-! ### C4 — embedding batch partial-failure tolerance -/

/-- Environment for the concrete 25-row batch: the metadata strings `m10`
and `m11` fail JSON decoding, every other row decodes to a non-empty text,
and every embedding call succeeds. -/
def envBatch : GenEnv :=
  ⟨fun m => if m = "m10" ∨ m = "m11" then none else some ⟨some "t"⟩,
   fun _ => EmbedOutcome.ok [1]⟩

/-- A batch of 25 rows with metadata strings `m1` .. `m25`. -/
def rows25 : List OutRow :=
  (List.range 25).map (fun k => ⟨toString (k + 1), "m" ++ toString (k + 1)⟩)

/-- C4: a row whose metadata fails JSON decoding, or decodes without a
non-empty `text`, is counted as failed and skipped, and the rest of the
batch is processed exactly as it would be from the post-skip state (so
every later row is still processed); in particular, for the concrete batch
of 25 rows in which exactly rows 10 and 11 fail metadata decoding and every
other row's embedding succeeds, exactly rows 10 and 11 end tagged
`not_processed` and exactly 23 rows end tagged
`embedding_status = "success"`. -/
theorem C4_partial_failure_tolerance :
    (∀ (env : GenEnv) (st : GenState) (r : OutRow) (rest : List OutRow),
      env.jsonLoads r.metadata = none →
      (genLoop env st (r :: rest)).1 =
        (r, none) ::
          (genLoop env
            { st with tracker := bumpError st.tracker "json_decode" st.clock,
                      faileds := st.faileds + 1 } rest).1 ∧
      (genLoop env st (r :: rest)).2 =
        (genLoop env
          { st with tracker := bumpError st.tracker "json_decode" st.clock,
                    faileds := st.faileds + 1 } rest).2)
    ∧ (∀ (env : GenEnv) (st : GenState) (r : OutRow) (rest : List OutRow) (m : PyMeta),
      env.jsonLoads r.metadata = some m → m.text.getD "" = "" →
      (genLoop env st (r :: rest)).1 =
        (r, none) ::
          (genLoop env
            { st with tracker := bumpError st.tracker "missing_text" st.clock,
                      faileds := st.faileds + 1 } rest).1 ∧
      (genLoop env st (r :: rest)).2 =
        (genLoop env
          { st with tracker := bumpError st.tracker "missing_text" st.clock,
                    faileds := st.faileds + 1 } rest).2)
    ∧ ((generate_embeddings_and_add_to_df envBatch GenState.mk0 rows25).1.map
        (fun g => g.embedding_status) =
        List.replicate 9 "success" ++ ["not_processed", "not_processed"] ++
          List.replicate 14 "success")
    ∧ (((generate_embeddings_and_add_to_df envBatch GenState.mk0 rows25).1.filter
        (fun g => g.embedding_status = "success")).length = 23)
    ∧ ((generate_embeddings_and_add_to_df envBatch GenState.mk0 rows25).2.1.faileds = 2) := by
  refine ⟨?_, ?_, ?_, ?_, ?_⟩
  · intro env st r rest h
    rcases hg : genLoop env
        { st with tracker := bumpError st.tracker "json_decode" st.clock,
                  faileds := st.faileds + 1 } rest with ⟨tl, stF, early⟩
    constructor
    · simp [genLoop, h, hg]
    · simp [genLoop, h, hg]
  · intro env st r rest m hm ht
    rcases hg : genLoop env
        { st with tracker := bumpError st.tracker "missing_text" st.clock,
                  faileds := st.faileds + 1 } rest with ⟨tl, stF, early⟩
    constructor
    · simp [genLoop, hm, ht, hg]
    · simp [genLoop, hm, ht, hg]
  · decide
  · decide
  · decide

/-- C4 witness: the decode-failure skip equation applied at a concrete
one-element environment, via the theorem. -/
theorem C4_partial_failure_tolerance_witness :
    (GenEnv.jsonLoads ⟨fun _ => none, fun _ => EmbedOutcome.ok [1]⟩ "m" = none) ∧
    ((genLoop ⟨fun _ => none, fun _ => EmbedOutcome.ok [1]⟩ GenState.mk0
        [(⟨"1", "m"⟩ : OutRow)]).1 =
      (⟨"1", "m"⟩, none) ::
        (genLoop ⟨fun _ => none, fun _ => EmbedOutcome.ok [1]⟩
          { GenState.mk0 with
              tracker := bumpError GenState.mk0.tracker "json_decode" GenState.mk0.clock,
              faileds := GenState.mk0.faileds + 1 } []).1 ∧
     (genLoop ⟨fun _ => none, fun _ => EmbedOutcome.ok [1]⟩ GenState.mk0
        [(⟨"1", "m"⟩ : OutRow)]).2 =
      (genLoop ⟨fun _ => none, fun _ => EmbedOutcome.ok [1]⟩
        { GenState.mk0 with
            tracker := bumpError GenState.mk0.tracker "json_decode" GenState.mk0.clock,
            faileds := GenState.mk0.faileds + 1 } []).2) :=
  ⟨rfl,
    C4_partial_failure_tolerance.1 ⟨fun _ => none, fun _ => EmbedOutcome.ok [1]⟩
      GenState.mk0 ⟨"1", "m"⟩ [] rfl⟩

/-! ### C7 — per-row/per-attempt circuit check with early partial return -/

/-- 1 exactly when the inner loop ended through the `should_continue` stop
signal. -/
def rowStop : RowOutcome → Nat
  | RowOutcome.stopAll => 1
  | RowOutcome.gotVec _ => 0
  | RowOutcome.gaveUp => 0

theorem processRow_counts (env : GenEnv) :
    ∀ (fuel retries : Nat) (st : GenState),
      (processRow env fuel retries st).2.consults + st.embedCalls =
        (processRow env fuel retries st).2.embedCalls + st.consults +
          rowStop (processRow env fuel retries st).1 := by
  intro fuel
  induction fuel with
  | zero =>
    intro retries st
    simp only [processRow, rowStop]
    omega
  | succ f ih =>
    intro retries st
    rcases hsc : should_continue st.tracker "rate_limit" 5 60 st.clock with ⟨cont, tr⟩
    cases cont
    · simp only [processRow, hsc, rowStop]
      try dsimp only
      omega
    · rcases hout : env.embed st.callIdx with vec | m | m | ⟨status, m⟩ | ⟨en, m⟩
      · simp only [processRow, hsc, hout, rowStop]
        try dsimp only
        omega
      · by_cases hr : retries + 1 > 3
        · simp only [processRow, hsc, hout, if_pos hr, rowStop]
          try dsimp only
          omega
        · have h := ih (retries + 1)
            { st with tracker := bumpError tr "rate_limit" (st.clock + 1 / 10),
                      clock := st.clock + 1 / 10 + 2 ^ retries * 5,
                      callIdx := st.callIdx + 1,
                      consults := st.consults + 1,
                      embedCalls := st.embedCalls + 1 }
          simp only [processRow, hsc, hout, if_neg hr]
          try dsimp only at h
          omega
      · by_cases hr : retries < 3
        · have h := ih (retries + 1)
            { st with tracker := bumpError tr "api_connection" (st.clock + 1 / 10),
                      clock := st.clock + 1 / 10 + 5 * (retries : Rat),
                      callIdx := st.callIdx + 1,
                      consults := st.consults + 1,
                      embedCalls := st.embedCalls + 1 }
          simp only [processRow, hsc, hout, if_pos hr]
          try dsimp only at h
          omega
        · simp only [processRow, hsc, hout, if_neg hr, rowStop]
          try dsimp only
          omega
      · by_cases h429 : status = some 429
        · by_cases hr : retries + 1 > 3
          · simp only [processRow, hsc, hout, if_pos h429, if_pos hr, rowStop]
            try dsimp only
            omega
          · have h := ih (retries + 1)
              { st with tracker := tr,
                        clock := st.clock + 1 / 10 + 2 ^ retries * 5,
                        callIdx := st.callIdx + 1,
                        consults := st.consults + 1,
                        embedCalls := st.embedCalls + 1 }
            simp only [processRow, hsc, hout, if_pos h429, if_neg hr]
            try dsimp only at h
            omega
        · simp only [processRow, hsc, hout, if_neg h429, rowStop]
          try dsimp only
          omega
      · simp only [processRow, hsc, hout, rowStop]
        try dsimp only
        omega

theorem genLoop_counts (env : GenEnv) :
    ∀ (rows : List OutRow) (st : GenState),
      (genLoop env st rows).2.1.consults + st.embedCalls =
        (genLoop env st rows).2.1.embedCalls + st.consults +
          ((genLoop env st rows).2.2).toNat := by
  intro rows
  induction rows with
  | nil =>
    intro st
    simp only [genLoop, Bool.toNat_false]
    omega
  | cons r rest ih =>
    intro st
    cases hj : env.jsonLoads r.metadata with
    | none =>
      rcases hg : genLoop env
          { st with tracker := bumpError st.tracker "json_decode" st.clock,
                    faileds := st.faileds + 1 } rest with ⟨tl, stF, early⟩
      have h := ih
        { st with tracker := bumpError st.tracker "json_decode" st.clock,
                  faileds := st.faileds + 1 }
      rw [hg] at h
      try dsimp only at h
      simp only [genLoop, hj, hg]
      try dsimp only
      omega
    | some m =>
      by_cases ht : m.text.getD "" = ""
      · rcases hg : genLoop env
            { st with tracker := bumpError st.tracker "missing_text" st.clock,
                      faileds := st.faileds + 1 } rest with ⟨tl, stF, early⟩
        have h := ih
          { st with tracker := bumpError st.tracker "missing_text" st.clock,
                    faileds := st.faileds + 1 }
        rw [hg] at h
        try dsimp only at h
        simp only [genLoop, hj, if_pos ht, hg]
        try dsimp only
        omega
      · rcases hp : processRow env 4 0 st with ⟨out, st1⟩
        have hc := processRow_counts env 4 0 st
        rw [hp] at hc
        cases out with
        | gotVec vec =>
          rcases hg : genLoop env { st1 with successes := st1.successes + 1 } rest
            with ⟨tl, stF, early⟩
          have h := ih { st1 with successes := st1.successes + 1 }
          rw [hg] at h
          try dsimp only at h
          simp only [rowStop] at hc
          try dsimp only at hc
          simp only [genLoop, hj, if_neg ht, hp, hg]
          try dsimp only
          omega
        | gaveUp =>
          rcases hg : genLoop env { st1 with faileds := st1.faileds + 1 } rest
            with ⟨tl, stF, early⟩
          have h := ih { st1 with faileds := st1.faileds + 1 }
          rw [hg] at h
          try dsimp only at h
          simp only [rowStop] at hc
          try dsimp only at hc
          simp only [genLoop, hj, if_neg ht, hp, hg]
          try dsimp only
          omega
        | stopAll =>
          simp only [rowStop] at hc
          try dsimp only at hc
          simp only [genLoop, hj, if_neg ht, hp, Bool.toNat_true]
          try dsimp only
          omega

theorem genLoop_fst (env : GenEnv) :
    ∀ (rows : List OutRow) (st : GenState),
      ((genLoop env st rows).1).map Prod.fst = rows := by
  intro rows
  induction rows with
  | nil =>
    intro st
    simp [genLoop]
  | cons r rest ih =>
    intro st
    cases hj : env.jsonLoads r.metadata with
    | none =>
      rcases hg : genLoop env
          { st with tracker := bumpError st.tracker "json_decode" st.clock,
                    faileds := st.faileds + 1 } rest with ⟨tl, stF, early⟩
      have h := ih
        { st with tracker := bumpError st.tracker "json_decode" st.clock,
                  faileds := st.faileds + 1 }
      rw [hg] at h
      simp only at h
      simp [genLoop, hj, hg, h]
    | some m =>
      by_cases ht : m.text.getD "" = ""
      · rcases hg : genLoop env
            { st with tracker := bumpError st.tracker "missing_text" st.clock,
                      faileds := st.faileds + 1 } rest with ⟨tl, stF, early⟩
        have h := ih
          { st with tracker := bumpError st.tracker "missing_text" st.clock,
                    faileds := st.faileds + 1 }
        rw [hg] at h
        simp only at h
        simp [genLoop, hj, ht, hg, h]
      · rcases hp : processRow env 4 0 st with ⟨out, st1⟩
        cases out with
        | gotVec vec =>
          rcases hg : genLoop env { st1 with successes := st1.successes + 1 } rest
            with ⟨tl, stF, early⟩
          have h := ih { st1 with successes := st1.successes + 1 }
          rw [hg] at h
          simp only at h
          simp [genLoop, hj, ht, hp, hg, h]
        | gaveUp =>
          rcases hg : genLoop env { st1 with faileds := st1.faileds + 1 } rest
            with ⟨tl, stF, early⟩
          have h := ih { st1 with faileds := st1.faileds + 1 }
          rw [hg] at h
          simp only at h
          simp [genLoop, hj, ht, hp, hg, h]
        | stopAll =>
          simp only [genLoop, hj, if_neg ht, hp, List.map_cons, List.map_map]
          try dsimp only
          rw [show (Prod.fst ∘ fun r' : OutRow => (r', (none : Option (List Rat)))) =
            (fun r' : OutRow => r') from rfl]
          simp

theorem genLoop_cons_decode_fail (env : GenEnv) (st : GenState) (r : OutRow)
    (rest : List OutRow) (h : env.jsonLoads r.metadata = none) :
    genLoop env st (r :: rest) =
      ((r, none) ::
        (genLoop env
          { st with tracker := bumpError st.tracker "json_decode" st.clock,
                    faileds := st.faileds + 1 } rest).1,
       (genLoop env
         { st with tracker := bumpError st.tracker "json_decode" st.clock,
                   faileds := st.faileds + 1 } rest).2) := by
  rcases hg : genLoop env
      { st with tracker := bumpError st.tracker "json_decode" st.clock,
                faileds := st.faileds + 1 } rest with ⟨tl, stF, early⟩
  simp [genLoop, h, hg]

theorem genLoop_cons_missing_text (env : GenEnv) (st : GenState) (r : OutRow)
    (rest : List OutRow) (m : PyMeta) (hm : env.jsonLoads r.metadata = some m)
    (ht : m.text.getD "" = "") :
    genLoop env st (r :: rest) =
      ((r, none) ::
        (genLoop env
          { st with tracker := bumpError st.tracker "missing_text" st.clock,
                    faileds := st.faileds + 1 } rest).1,
       (genLoop env
         { st with tracker := bumpError st.tracker "missing_text" st.clock,
                   faileds := st.faileds + 1 } rest).2) := by
  rcases hg : genLoop env
      { st with tracker := bumpError st.tracker "missing_text" st.clock,
                faileds := st.faileds + 1 } rest with ⟨tl, stF, early⟩
  simp [genLoop, hm, ht, hg]

theorem genLoop_cons_gotVec (env : GenEnv) (st : GenState) (r : OutRow)
    (rest : List OutRow) (m : PyMeta) (vec : List Rat) (st1 : GenState)
    (hm : env.jsonLoads r.metadata = some m) (ht : ¬ m.text.getD "" = "")
    (hp : processRow env 4 0 st = (RowOutcome.gotVec vec, st1)) :
    genLoop env st (r :: rest) =
      ((r, some vec) ::
        (genLoop env { st1 with successes := st1.successes + 1 } rest).1,
       (genLoop env { st1 with successes := st1.successes + 1 } rest).2) := by
  rcases hg : genLoop env { st1 with successes := st1.successes + 1 } rest
    with ⟨tl, stF, early⟩
  simp [genLoop, hm, ht, hp, hg]

theorem genLoop_cons_gaveUp (env : GenEnv) (st : GenState) (r : OutRow)
    (rest : List OutRow) (m : PyMeta) (st1 : GenState)
    (hm : env.jsonLoads r.metadata = some m) (ht : ¬ m.text.getD "" = "")
    (hp : processRow env 4 0 st = (RowOutcome.gaveUp, st1)) :
    genLoop env st (r :: rest) =
      ((r, none) ::
        (genLoop env { st1 with faileds := st1.faileds + 1 } rest).1,
       (genLoop env { st1 with faileds := st1.faileds + 1 } rest).2) := by
  rcases hg : genLoop env { st1 with faileds := st1.faileds + 1 } rest
    with ⟨tl, stF, early⟩
  simp [genLoop, hm, ht, hp, hg]

theorem genLoop_cons_stopAll (env : GenEnv) (st : GenState) (r : OutRow)
    (rest : List OutRow) (m : PyMeta) (st1 : GenState)
    (hm : env.jsonLoads r.metadata = some m) (ht : ¬ m.text.getD "" = "")
    (hp : processRow env 4 0 st = (RowOutcome.stopAll, st1)) :
    genLoop env st (r :: rest) =
      ((r, none) :: rest.map (fun r' => (r', none)), st1, true) := by
  simp [genLoop, hm, ht, hp]

/-- On an early return, `genLoop` decomposes as: a prefix of rows processed
normally (no stop signal), then one row whose inner loop ended in the
`should_continue` stop from the state the prefix left; the returned pairs
are the prefix's pairs followed by the stopping row and every later row
untouched (`values = None`), and the returned state is exactly the state of
that stopping inner loop — no later row is processed. -/
theorem genLoop_early_stop (env : GenEnv) :
    ∀ (rows : List OutRow) (st : GenState),
      (genLoop env st rows).2.2 = true →
      ∃ (pre : List OutRow) (r : OutRow) (post : List OutRow),
        rows = pre ++ r :: post ∧
        (genLoop env st pre).2.2 = false ∧
        (genLoop env st rows).1 =
          (genLoop env st pre).1 ++ (r, none) :: post.map (fun r' => (r', none)) ∧
        (genLoop env st rows).2.1 =
          (processRow env 4 0 (genLoop env st pre).2.1).2 ∧
        (processRow env 4 0 (genLoop env st pre).2.1).1 = RowOutcome.stopAll := by
  intro rows
  induction rows with
  | nil =>
    intro st h
    simp [genLoop] at h
  | cons r rest ih =>
    intro st h
    cases hj : env.jsonLoads r.metadata with
    | none =>
      rw [genLoop_cons_decode_fail env st r rest hj] at h
      try dsimp only at h
      obtain ⟨pre, r0, post, h1, h2, h3, h4, h5⟩ := ih _ h
      refine ⟨r :: pre, r0, post, by rw [List.cons_append, h1], ?_, ?_, ?_, ?_⟩
      · rw [genLoop_cons_decode_fail env st r pre hj]
        exact h2
      · rw [genLoop_cons_decode_fail env st r rest hj,
          genLoop_cons_decode_fail env st r pre hj]
        try dsimp only
        rw [h3, List.cons_append]
      · rw [genLoop_cons_decode_fail env st r rest hj,
          genLoop_cons_decode_fail env st r pre hj]
        try dsimp only
        exact h4
      · rw [genLoop_cons_decode_fail env st r pre hj]
        exact h5
    | some m =>
      by_cases ht : m.text.getD "" = ""
      · rw [genLoop_cons_missing_text env st r rest m hj ht] at h
        try dsimp only at h
        obtain ⟨pre, r0, post, h1, h2, h3, h4, h5⟩ := ih _ h
        refine ⟨r :: pre, r0, post, by rw [List.cons_append, h1], ?_, ?_, ?_, ?_⟩
        · rw [genLoop_cons_missing_text env st r pre m hj ht]
          exact h2
        · rw [genLoop_cons_missing_text env st r rest m hj ht,
            genLoop_cons_missing_text env st r pre m hj ht]
          try dsimp only
          rw [h3, List.cons_append]
        · rw [genLoop_cons_missing_text env st r rest m hj ht,
            genLoop_cons_missing_text env st r pre m hj ht]
          try dsimp only
          exact h4
        · rw [genLoop_cons_missing_text env st r pre m hj ht]
          exact h5
      · rcases hp : processRow env 4 0 st with ⟨out, st1⟩
        cases out with
        | gotVec vec =>
          rw [genLoop_cons_gotVec env st r rest m vec st1 hj ht hp] at h
          try dsimp only at h
          obtain ⟨pre, r0, post, h1, h2, h3, h4, h5⟩ := ih _ h
          refine ⟨r :: pre, r0, post, by rw [List.cons_append, h1], ?_, ?_, ?_, ?_⟩
          · rw [genLoop_cons_gotVec env st r pre m vec st1 hj ht hp]
            exact h2
          · rw [genLoop_cons_gotVec env st r rest m vec st1 hj ht hp,
              genLoop_cons_gotVec env st r pre m vec st1 hj ht hp]
            try dsimp only
            rw [h3, List.cons_append]
          · rw [genLoop_cons_gotVec env st r rest m vec st1 hj ht hp,
              genLoop_cons_gotVec env st r pre m vec st1 hj ht hp]
            try dsimp only
            exact h4
          · rw [genLoop_cons_gotVec env st r pre m vec st1 hj ht hp]
            exact h5
        | gaveUp =>
          rw [genLoop_cons_gaveUp env st r rest m st1 hj ht hp] at h
          try dsimp only at h
          obtain ⟨pre, r0, post, h1, h2, h3, h4, h5⟩ := ih _ h
          refine ⟨r :: pre, r0, post, by rw [List.cons_append, h1], ?_, ?_, ?_, ?_⟩
          · rw [genLoop_cons_gaveUp env st r pre m st1 hj ht hp]
            exact h2
          · rw [genLoop_cons_gaveUp env st r rest m st1 hj ht hp,
              genLoop_cons_gaveUp env st r pre m st1 hj ht hp]
            try dsimp only
            rw [h3, List.cons_append]
          · rw [genLoop_cons_gaveUp env st r rest m st1 hj ht hp,
              genLoop_cons_gaveUp env st r pre m st1 hj ht hp]
            try dsimp only
            exact h4
          · rw [genLoop_cons_gaveUp env st r pre m st1 hj ht hp]
            exact h5
        | stopAll =>
          refine ⟨[], r, rest, rfl, rfl, ?_, ?_, ?_⟩
          · rw [genLoop_cons_stopAll env st r rest m st1 hj ht hp]
            rfl
          · rw [genLoop_cons_stopAll env st r rest m st1 hj ht hp]
            rw [show (genLoop env st []).2.1 = st from rfl, hp]
          · rw [show (genLoop env st []).2.1 = st from rfl, hp]

/-- Environment in which every embedding call is rate-limited. -/
def envRL : GenEnv :=
  ⟨fun _ => some ⟨some "t"⟩, fun _ => EmbedOutcome.rateLimit "rl"⟩

/-- C7 counterexample: for a single-row frame whose every embedding attempt
is rate-limited (fresh tracker, so the guard never trips), the
`should_continue` guard is consulted 4 times — once before the initial
attempt and once before each of the 3 retries — because the check sits at
the top of the retry `while` loop (src/utils/data_prep.py lines 123-125);
the claim's "once before each row and not again before each retry" would
give exactly 1 consultation for the 1 row. -/
theorem C7_counterexample :
    (generate_embeddings_and_add_to_df envRL GenState.mk0
        [(⟨"1", "m"⟩ : OutRow)]).2.1.consults = 4 ∧
    ([(⟨"1", "m"⟩ : OutRow)]).length = 1 ∧
    (generate_embeddings_and_add_to_df envRL GenState.mk0
        [(⟨"1", "m"⟩ : OutRow)]).2.1.consults ≠
      ([(⟨"1", "m"⟩ : OutRow)]).length := by
  refine ⟨by decide, by decide, by decide⟩

/-- C7 (amended): `generate_embeddings_and_add_to_df` consults
`should_continue("rate_limit", threshold=5, window_seconds=60)` once before
*every* embedding attempt — the initial attempt and each retry of each row
(the number of consultations exceeds the number of embedding calls by
exactly one precisely when a consultation signalled stop); whenever the
check signals stop, the function immediately returns the partial frame
without processing any later row: the output is the prefix processed before
the stop followed by the stopping row and every later row with their
`values` cell still `None`, all rows tagged `"success"` or
`"not_processed"` according to whether they hold an embedding list, and the
final state is exactly the state of the stopping inner loop (so no later
row triggers any consultation or embedding call). -/
theorem C7_consult_before_each_attempt (env : GenEnv) (st : GenState)
    (rows : List OutRow) :
    ((generate_embeddings_and_add_to_df env st rows).2.1.consults + st.embedCalls =
      (generate_embeddings_and_add_to_df env st rows).2.1.embedCalls + st.consults +
        ((generate_embeddings_and_add_to_df env st rows).2.2).toNat)
    ∧ (((generate_embeddings_and_add_to_df env st rows).1).map (fun g => g.id) =
        rows.map (fun r => r.id))
    ∧ (∀ g ∈ (generate_embeddings_and_add_to_df env st rows).1,
        (g.embedding_status = "success" ↔ g.values.isSome = true) ∧
        (g.embedding_status = "success" ∨ g.embedding_status = "not_processed"))
    ∧ ((generate_embeddings_and_add_to_df env st rows).2.2 = true →
        ∃ (pre : List OutRow) (r : OutRow) (post : List OutRow),
          rows = pre ++ r :: post ∧
          (genLoop env st pre).2.2 = false ∧
          (generate_embeddings_and_add_to_df env st rows).1 =
            ((genLoop env st pre).1 ++
              (r, none) :: post.map (fun r' => (r', none))).map tagStatus ∧
          (generate_embeddings_and_add_to_df env st rows).2.1 =
            (processRow env 4 0 (genLoop env st pre).2.1).2 ∧
          (processRow env 4 0 (genLoop env st pre).2.1).1 = RowOutcome.stopAll) := by
  by_cases hrows : rows = []
  · subst hrows
    refine ⟨?_, by simp [generate_embeddings_and_add_to_df], ?_, ?_⟩
    · have hval : generate_embeddings_and_add_to_df env st ([] : List OutRow) =
          ([], st, false) := rfl
      rw [hval]
      simp only [Bool.toNat_false]
      omega
    · intro g hg
      simp [generate_embeddings_and_add_to_df] at hg
    · intro hEarly
      simp [generate_embeddings_and_add_to_df] at hEarly
  · rcases hg : genLoop env st rows with ⟨ps, stF, early⟩
    have hcounts := genLoop_counts env rows st
    have hfst := genLoop_fst env rows st
    rw [hg] at hcounts hfst
    try dsimp only at hcounts hfst
    refine ⟨?_, ?_, ?_, ?_⟩
    · simp only [generate_embeddings_and_add_to_df, if_neg hrows, hg]
      try dsimp only
      omega
    · simp only [generate_embeddings_and_add_to_df, if_neg hrows, hg]
      rw [List.map_map]
      rw [show ((fun g : GRow => g.id) ∘ tagStatus) =
        (fun p : OutRow × Option (List Rat) => p.1.id) from rfl]
      rw [show (fun p : OutRow × Option (List Rat) => p.1.id) =
        ((fun r : OutRow => r.id) ∘ Prod.fst) from rfl]
      rw [← List.map_map, hfst]
    · simp only [generate_embeddings_and_add_to_df, if_neg hrows, hg]
      intro g hgm
      rw [List.mem_map] at hgm
      obtain ⟨p, hp, rfl⟩ := hgm
      rcases hpv : p.2 with _ | v
      · constructor
        · simp [tagStatus, hpv]
        · simp [tagStatus, hpv]
      · constructor
        · simp [tagStatus, hpv]
        · simp [tagStatus, hpv]
    · intro hEarly
      have hE : early = true := by
        have hval : (generate_embeddings_and_add_to_df env st rows).2.2 = early := by
          simp [generate_embeddings_and_add_to_df, hrows, hg]
        rw [hval] at hEarly
        exact hEarly
      obtain ⟨pre, r, post, h1, h2, h3, h4, h5⟩ :=
        genLoop_early_stop env rows st (by rw [hg]; exact hE)
      rw [hg] at h3 h4
      try dsimp only at h3 h4
      refine ⟨pre, r, post, h1, h2, ?_, ?_, h5⟩
      · have hgen1 : (generate_embeddings_and_add_to_df env st rows).1 =
            ps.map tagStatus := by
          simp [generate_embeddings_and_add_to_df, hrows, hg]
        rw [hgen1, h3]
      · have hgen2 : (generate_embeddings_and_add_to_df env st rows).2.1 = stF := by
          simp [generate_embeddings_and_add_to_df, hrows, hg]
        rw [hgen2, h4]

/-- A run state whose tracker already holds 5 recent rate-limit errors, so
the very first `should_continue` consultation of the next run signals stop. -/
def stStop : GenState :=
  { GenState.mk0 with
      tracker := { TrackerState.mk0 with
        error_counts := [("rate_limit", 5)],
        last_error_time := [("rate_limit", 0)] } }

/-- C7 witness: the amended theorem applied to a concrete two-row frame
whose first consultation signals stop (tracker pre-loaded with 5 recent
rate-limit errors), discharging the early-return clause's hypothesis: the
returned frame is both rows untouched (`values = None`) and tagged by the
values rule, and the final state is the stopping consultation's state. -/
theorem C7_consult_before_each_attempt_witness :
    ((generate_embeddings_and_add_to_df envRL stStop
        [(⟨"1", "m"⟩ : OutRow), (⟨"2", "n"⟩ : OutRow)]).2.2 = true) ∧
    (((generate_embeddings_and_add_to_df envRL stStop
        [(⟨"1", "m"⟩ : OutRow), (⟨"2", "n"⟩ : OutRow)]).2.1.consults + stStop.embedCalls =
      (generate_embeddings_and_add_to_df envRL stStop
        [(⟨"1", "m"⟩ : OutRow), (⟨"2", "n"⟩ : OutRow)]).2.1.embedCalls + stStop.consults +
        ((generate_embeddings_and_add_to_df envRL stStop
            [(⟨"1", "m"⟩ : OutRow), (⟨"2", "n"⟩ : OutRow)]).2.2).toNat)
    ∧ (((generate_embeddings_and_add_to_df envRL stStop
        [(⟨"1", "m"⟩ : OutRow), (⟨"2", "n"⟩ : OutRow)]).1).map (fun g => g.id) =
        [(⟨"1", "m"⟩ : OutRow), (⟨"2", "n"⟩ : OutRow)].map (fun r => r.id))
    ∧ (∀ g ∈ (generate_embeddings_and_add_to_df envRL stStop
        [(⟨"1", "m"⟩ : OutRow), (⟨"2", "n"⟩ : OutRow)]).1,
        (g.embedding_status = "success" ↔ g.values.isSome = true) ∧
        (g.embedding_status = "success" ∨ g.embedding_status = "not_processed"))
    ∧ ((generate_embeddings_and_add_to_df envRL stStop
          [(⟨"1", "m"⟩ : OutRow), (⟨"2", "n"⟩ : OutRow)]).2.2 = true →
        ∃ (pre : List OutRow) (r : OutRow) (post : List OutRow),
          [(⟨"1", "m"⟩ : OutRow), (⟨"2", "n"⟩ : OutRow)] = pre ++ r :: post ∧
          (genLoop envRL stStop pre).2.2 = false ∧
          (generate_embeddings_and_add_to_df envRL stStop
            [(⟨"1", "m"⟩ : OutRow), (⟨"2", "n"⟩ : OutRow)]).1 =
            ((genLoop envRL stStop pre).1 ++
              (r, none) :: post.map (fun r' => (r', none))).map tagStatus ∧
          (generate_embeddings_and_add_to_df envRL stStop
            [(⟨"1", "m"⟩ : OutRow), (⟨"2", "n"⟩ : OutRow)]).2.1 =
            (processRow envRL 4 0 (genLoop envRL stStop pre).2.1).2 ∧
          (processRow envRL 4 0 (genLoop envRL stStop pre).2.1).1 =
            RowOutcome.stopAll)) :=
  ⟨by
      have hsc : should_continue stStop.tracker "rate_limit" 5 60 stStop.clock =
          (false, stStop.tracker) := by
        norm_num [should_continue, lookupA, stStop, GenState.mk0, TrackerState.mk0]
      have hp0 : (processRow envRL 4 0 stStop).1 = RowOutcome.stopAll := by
        simp [processRow, hsc]
      rcases hpr : processRow envRL 4 0 stStop with ⟨out, st1⟩
      rw [hpr] at hp0
      subst hp0
      have hgl := genLoop_cons_stopAll envRL stStop ⟨"1", "m"⟩ [⟨"2", "n"⟩]
        ⟨some "t"⟩ st1 rfl (by decide) hpr
      simp only [generate_embeddings_and_add_to_df, hgl]
      rw [if_neg (by decide : ¬ ([(⟨"1", "m"⟩ : OutRow), ⟨"2", "n"⟩] : List OutRow) = [])],
    C7_consult_before_each_attempt envRL stStop
      [(⟨"1", "m"⟩ : OutRow), (⟨"2", "n"⟩ : OutRow)]⟩

/-! ### C1 — upsert eligibility invariant -/

theorem processRow_gotVec (env : GenEnv) :
    ∀ (fuel retries : Nat) (st : GenState) (vec : List Rat) (st' : GenState),
      processRow env fuel retries st = (RowOutcome.gotVec vec, st') →
      ∃ i, env.embed i = EmbedOutcome.ok vec := by
  intro fuel
  induction fuel with
  | zero =>
    intro retries st vec st' h
    simp [processRow] at h
  | succ f ih =>
    intro retries st vec st' h
    rcases hsc : should_continue st.tracker "rate_limit" 5 60 st.clock with ⟨cont, tr⟩
    cases cont
    · simp [processRow, hsc] at h
    · rcases hout : env.embed st.callIdx with vec' | m | m | ⟨status, m⟩ | ⟨en, m⟩
      · simp only [processRow, hsc, hout, Prod.mk.injEq, RowOutcome.gotVec.injEq] at h
        exact ⟨st.callIdx, by rw [hout, h.1]⟩
      · by_cases hr : retries + 1 > 3
        · simp [processRow, hsc, hout, hr] at h
        · simp only [processRow, hsc, hout, if_neg hr] at h
          exact ih _ _ _ _ h
      · by_cases hr : retries < 3
        · simp only [processRow, hsc, hout, if_pos hr] at h
          exact ih _ _ _ _ h
        · simp [processRow, hsc, hout, hr] at h
      · by_cases h429 : status = some 429
        · by_cases hr : retries + 1 > 3
          · simp [processRow, hsc, hout, h429, hr] at h
          · simp only [processRow, hsc, hout, if_pos h429, if_neg hr] at h
            exact ih _ _ _ _ h
        · simp [processRow, hsc, hout, h429] at h
      · simp [processRow, hsc, hout] at h

theorem genLoop_values (env : GenEnv) :
    ∀ (rows : List OutRow) (st : GenState) (p : OutRow × Option (List Rat)),
      p ∈ (genLoop env st rows).1 → ∀ v, p.2 = some v →
      ∃ i, env.embed i = EmbedOutcome.ok v := by
  intro rows
  induction rows with
  | nil =>
    intro st p hp v hv
    simp [genLoop] at hp
  | cons r rest ih =>
    intro st p hp v hv
    cases hj : env.jsonLoads r.metadata with
    | none =>
      rcases hg : genLoop env
          { st with tracker := bumpError st.tracker "json_decode" st.clock,
                    faileds := st.faileds + 1 } rest with ⟨tl, stF, early⟩
      rw [show (genLoop env st (r :: rest)).1 = (r, none) :: tl from by
        simp [genLoop, hj, hg]] at hp
      rcases List.mem_cons.mp hp with rfl | hp'
      · simp at hv
      · exact ih _ p (by rw [hg]; exact hp') v hv
    | some m =>
      by_cases ht : m.text.getD "" = ""
      · rcases hg : genLoop env
            { st with tracker := bumpError st.tracker "missing_text" st.clock,
                      faileds := st.faileds + 1 } rest with ⟨tl, stF, early⟩
        rw [show (genLoop env st (r :: rest)).1 = (r, none) :: tl from by
          simp [genLoop, hj, ht, hg]] at hp
        rcases List.mem_cons.mp hp with rfl | hp'
        · simp at hv
        · exact ih _ p (by rw [hg]; exact hp') v hv
      · rcases hpr : processRow env 4 0 st with ⟨out, st1⟩
        cases out with
        | gotVec vec =>
          rcases hg : genLoop env { st1 with successes := st1.successes + 1 } rest
            with ⟨tl, stF, early⟩
          rw [show (genLoop env st (r :: rest)).1 = (r, some vec) :: tl from by
            simp [genLoop, hj, ht, hpr, hg]] at hp
          rcases List.mem_cons.mp hp with rfl | hp'
          · have hvec : vec = v := by
              simpa using hv
            subst hvec
            exact processRow_gotVec env 4 0 st vec st1 hpr
          · exact ih _ p (by rw [hg]; exact hp') v hv
        | gaveUp =>
          rcases hg : genLoop env { st1 with faileds := st1.faileds + 1 } rest
            with ⟨tl, stF, early⟩
          rw [show (genLoop env st (r :: rest)).1 = (r, none) :: tl from by
            simp [genLoop, hj, ht, hpr, hg]] at hp
          rcases List.mem_cons.mp hp with rfl | hp'
          · simp at hv
          · exact ih _ p (by rw [hg]; exact hp') v hv
        | stopAll =>
          rw [show (genLoop env st (r :: rest)).1 =
              (r, none) :: rest.map (fun r' => (r', none)) from by
            simp [genLoop, hj, ht, hpr]] at hp
          rcases List.mem_cons.mp hp with rfl | hp'
          · simp at hv
          · obtain ⟨r', -, rfl⟩ := List.mem_map.mp hp'
            simp at hv

theorem gen_row_props (env : GenEnv) (st : GenState) (b : List OutRow) :
    ∀ g ∈ (generate_embeddings_and_add_to_df env st b).1,
      (g.embedding_status = "success" ↔ g.values.isSome = true) ∧
      (g.embedding_status = "success" ∨ g.embedding_status = "not_processed") ∧
      (∀ v, g.values = some v → ∃ i, env.embed i = EmbedOutcome.ok v) := by
  intro g hg
  by_cases hb : b = []
  · subst hb
    simp [generate_embeddings_and_add_to_df] at hg
  · rcases hloop : genLoop env st b with ⟨ps, stF, early⟩
    rw [show (generate_embeddings_and_add_to_df env st b).1 = ps.map tagStatus from by
      simp [generate_embeddings_and_add_to_df, hb, hloop]] at hg
    rw [List.mem_map] at hg
    obtain ⟨p, hp, rfl⟩ := hg
    have hval := genLoop_values env b st p (by rw [hloop]; exact hp)
    rcases hpv : p.2 with _ | v
    · refine ⟨by simp [tagStatus, hpv], by simp [tagStatus, hpv], ?_⟩
      intro v hvv
      rw [show (tagStatus p).values = p.2 from rfl, hpv] at hvv
      exact Option.noConfusion hvv
    · refine ⟨by simp [tagStatus, hpv], by simp [tagStatus, hpv], ?_⟩
      intro v' hvv
      rw [show (tagStatus p).values = p.2 from rfl] at hvv
      exact hval v' hvv

theorem mainBatches_success_filter (env : GenEnv) :
    ∀ (bs : List (List OutRow)) (ms : MainState),
      (mainBatches env ms bs).1 =
        ((mainBatches env ms bs).2.1).filter
          (fun g => g.embedding_status = "success") := by
  intro bs
  induction bs with
  | nil =>
    intro ms
    simp [mainBatches]
  | cons b bs ih =>
    intro ms
    rcases hsc : should_continue ms.gs.tracker "rate_limit" 10 60 ms.gs.clock
      with ⟨cont, tr⟩
    cases cont
    · simp [mainBatches, hsc]
    · rcases hgen : generate_embeddings_and_add_to_df env { ms.gs with tracker := tr } b
        with ⟨grows, gsF, early⟩
      simp only [mainBatches, hsc, hgen, if_true]
      try dsimp only
      rw [List.filter_append, ih]

theorem mainBatches_all (env : GenEnv) (P : GRow → Prop)
    (hgen : ∀ (gs : GenState) (b : List OutRow),
      ∀ g ∈ (generate_embeddings_and_add_to_df env gs b).1, P g) :
    ∀ (bs : List (List OutRow)) (ms : MainState),
      ∀ g ∈ (mainBatches env ms bs).2.1, P g := by
  intro bs
  induction bs with
  | nil =>
    intro ms g hg
    simp [mainBatches] at hg
  | cons b bs ih =>
    intro ms g hg
    rcases hsc : should_continue ms.gs.tracker "rate_limit" 10 60 ms.gs.clock
      with ⟨cont, tr⟩
    cases cont
    · simp [mainBatches, hsc] at hg
    · rcases hgen2 : generate_embeddings_and_add_to_df env { ms.gs with tracker := tr } b
        with ⟨grows, gsF, early⟩
      simp only [mainBatches, hsc, hgen2, if_true] at hg
      try dsimp only at hg
      rw [List.mem_append] at hg
      rcases hg with hg | hg
      · exact hgen { ms.gs with tracker := tr } b g (by rw [hgen2]; exact hg)
      · exact ih _ g hg

/-- C1: after the ingestion refresh of `main`, a cleaned record is passed to
`upsert_data` if and only if `generate_embeddings_and_add_to_df` tagged it
`embedding_status = "success"` (the upserted list is exactly the
success-filtered rows with the bookkeeping `embedding_status` column
dropped); a row is tagged `"success"` exactly when it holds an embedding
list in `values`; every other row is tagged `"not_processed"` and excluded;
and — when the embedding service returns only non-empty vectors — every
record tagged `"success"` holds a non-empty embedding list that the service
actually produced, so partial failures elsewhere in a batch do not corrupt
embeddings already produced for other rows. -/
theorem C1_upsert_eligibility (env : GenEnv) (st : GenState) (rows : List OutRow)
    (hemb : ∀ i v, env.embed i = EmbedOutcome.ok v → v ≠ []) :
    ((main_ingest env st rows).1 =
      (((main_ingest env st rows).2.1).filter
        (fun g => g.embedding_status = "success")).map dropStatus)
    ∧ (∀ g ∈ (main_ingest env st rows).2.1,
        (g.embedding_status = "success" ↔ g.values.isSome = true))
    ∧ (∀ g ∈ (main_ingest env st rows).2.1,
        g.embedding_status = "success" ∨ g.embedding_status = "not_processed")
    ∧ (∀ g ∈ (main_ingest env st rows).2.1,
        g.embedding_status = "success" → ∃ v, g.values = some v ∧ v ≠ []) := by
  rcases hmb : mainBatches env ⟨st, 2⟩ (chunkList25 rows) with ⟨succ, allR, msF⟩
  have hfil := mainBatches_success_filter env (chunkList25 rows) ⟨st, 2⟩
  rw [hmb] at hfil
  try dsimp only at hfil
  have hall := mainBatches_all env (fun g =>
      (g.embedding_status = "success" ↔ g.values.isSome = true) ∧
      (g.embedding_status = "success" ∨ g.embedding_status = "not_processed") ∧
      (∀ v, g.values = some v → ∃ i, env.embed i = EmbedOutcome.ok v))
    (fun gs b => gen_row_props env gs b) (chunkList25 rows) ⟨st, 2⟩
  rw [hmb] at hall
  try dsimp only at hall
  have hmain1 : (main_ingest env st rows).1 =
      if succ = [] then [] else succ.map dropStatus := by
    simp [main_ingest, hmb]
  have hmain2 : (main_ingest env st rows).2.1 = allR := by
    simp [main_ingest, hmb]
  refine ⟨?_, ?_, ?_, ?_⟩
  · rw [hmain1, hmain2]
    by_cases hs : succ = []
    · rw [if_pos hs, ← hfil, hs]
      simp
    · rw [if_neg hs, ← hfil]
  · rw [hmain2]
    intro g hg
    exact (hall g hg).1
  · rw [hmain2]
    intro g hg
    exact (hall g hg).2.1
  · rw [hmain2]
    intro g hg hsu
    have h1 := (hall g hg).1
    have h3 := (hall g hg).2.2
    rcases hv : g.values with _ | v
    · rw [h1, hv] at hsu
      simp at hsu
    · obtain ⟨i, hi⟩ := h3 v hv
      exact ⟨v, rfl, hemb i v hi⟩

/-- C1 witness: the theorem applied to the concrete 25-row ingestion in
which rows 10 and 11 fail decoding and every embedding call returns the
non-empty vector `[1]`. -/
theorem C1_upsert_eligibility_witness :
    (∀ i v, GenEnv.embed envBatch i = EmbedOutcome.ok v → v ≠ []) ∧
    (((main_ingest envBatch GenState.mk0 rows25).1 =
      (((main_ingest envBatch GenState.mk0 rows25).2.1).filter
        (fun g => g.embedding_status = "success")).map dropStatus)
    ∧ (∀ g ∈ (main_ingest envBatch GenState.mk0 rows25).2.1,
        (g.embedding_status = "success" ↔ g.values.isSome = true))
    ∧ (∀ g ∈ (main_ingest envBatch GenState.mk0 rows25).2.1,
        g.embedding_status = "success" ∨ g.embedding_status = "not_processed")
    ∧ (∀ g ∈ (main_ingest envBatch GenState.mk0 rows25).2.1,
        g.embedding_status = "success" → ∃ v, g.values = some v ∧ v ≠ [])) :=
  ⟨fun i v h => by
      simp only [envBatch] at h
      injection h with h1
      rw [← h1]
      simp,
    C1_upsert_eligibility envBatch GenState.mk0 rows25
      (fun i v h => by
        simp only [envBatch] at h
        injection h with h1
        rw [← h1]
        simp)⟩

end RagDemo
